import Mathlib

/-!
# Settings: patch / serialize of the persisted configuration record

A shallow embedding of `lib/Settings/Settings.cpp`.

* Heap-owned arrays are values: a pointer field is an `Option` (`none` is the
  null pointer) holding the list of cells of the allocated array.  A cell of
  `gatewayConfigs` is itself an `Option`: `none` is a cell of the freshly
  allocated pointer array that was never assigned (its content is
  indeterminate and must not be read).
* The document collaborator is a tree of values with the accessors the
  source calls (`success`, `containsKey`, `operator[]`, `size`, `copyTo`,
  `as<T>`).  Floating-point values are outside the model.
* Machine integers are naturals reduced modulo `2 ^ w`.
* Constants that come from headers (`MINIMUM_RESTART_PERIOD`,
  `DEFAULT_MQTT_PORT`, `SETTINGS_TERMINATOR`) are parameters.
* The byte store is the optional text of the settings blob with a flag for
  whether it can be opened for writing; the text side of the codec is a pair
  of functions taken as given.
* Allocation is followed by counting the live blocks of each kind next to the
  state (`patchHeap`).
-/

namespace MiLight

/-! ## Document collaborator -/

/-- A value held by a document: the variant kinds of the document codec
(floating point left out). -/
inductive JsonVariant where
  | undefined
  | boolean (b : Bool)
  | integer (n : Int)
  | string (s : String)
  | array (elems : List JsonVariant)
  | object (members : List (String × JsonVariant))

/-- A `JsonArray&`: the `invalid()` array has `success = false` and no elements. -/
structure JsonArray where
  success : Bool
  elems : List JsonVariant

/-- A `JsonObject&`: members in insertion order, with the validity flag that
`parseObject` clears when the text could not be parsed. -/
structure JsonObject where
  success : Bool
  members : List (String × JsonVariant)

namespace JsonVariant

/-- Text of one character inside a quoted string of the compact printer. -/
def escapeChar (c : Char) : List Char :=
  if c = '"' then ['\\', '"']
  else if c = '\\' then ['\\', '\\']
  else if c = '\n' then ['\\', 'n']
  else if c = '\r' then ['\\', 'r']
  else if c = '\t' then ['\\', 't']
  else if c = Char.ofNat 8 then ['\\', 'b']
  else if c = Char.ofNat 12 then ['\\', 'f']
  else [c]

/-- Quoted form of a string in the compact printer. -/
def quoted (s : String) : String :=
  String.mk ('"' :: (s.data.flatMap escapeChar ++ ['"']))

mutual
/-- Compact `printTo` of a value (an undefined value prints nothing). -/
def printTo : JsonVariant → String
  | undefined => ""
  | boolean b => if b then "true" else "false"
  | integer n => toString n
  | string s => quoted s
  | array xs => "[" ++ printElems xs ++ "]"
  | object ms => "\x7b" ++ printMembers ms ++ "\x7d"
/-- Elements of an array, comma separated. -/
def printElems : List JsonVariant → String
  | [] => ""
  | [x] => printTo x
  | x :: y :: xs => printTo x ++ "," ++ printElems (y :: xs)
/-- Members of an object, comma separated. -/
def printMembers : List (String × JsonVariant) → String
  | [] => ""
  | [(k, v)] => quoted k ++ ":" ++ printTo v
  | (k, v) :: m :: ms => quoted k ++ ":" ++ printTo v ++ "," ++ printMembers (m :: ms)
end

/-- Decimal digits at the head of a text, accumulated in a `w`-bit unsigned
integer (`result = T(result * 10 + digit)`). -/
def parseDigits (w : Nat) : List Char → Nat → Nat
  | [], acc => acc
  | c :: cs, acc =>
    if c.isDigit then parseDigits w cs ((acc * 10 + (c.toNat - '0'.toNat)) % 2 ^ w) else acc

/-- The codec's `parseInteger<T>` for a `w`-bit unsigned `T`: an optional
sign, then decimal digits; text that is not numeric reads as zero. -/
def parseInteger (w : Nat) : List Char → Nat
  | '-' :: cs => (2 ^ w - parseDigits w cs 0) % 2 ^ w
  | '+' :: cs => parseDigits w cs 0
  | cs => parseDigits w cs 0

/-- Coercion `as<T>()` to a `w`-bit unsigned integer `T`: numbers are
truncated, text goes through `parseInteger`, a missing value is zero (so is,
in this model, an array or object, for which the codec fixes no value). -/
def asUInt (w : Nat) : JsonVariant → Nat
  | undefined => 0
  | boolean b => if b then 1 % 2 ^ w else 0
  | integer n => (n % (2 ^ w : Int)).toNat
  | string s => parseInteger w s.data
  | array _ => 0
  | object _ => 0

/-- Coercion `as<String>()`: a text value is returned as is, every other
value is printed. -/
def asString : JsonVariant → String
  | string s => s
  | v => printTo v

/-- The value is a text or an integer. -/
def isTextOrInteger : JsonVariant → Bool
  | string _ => true
  | integer _ => true
  | _ => false

/-- Coercion to `JsonArray&`: the array itself, or `JsonArray::invalid()`
when the value is not an array. -/
def asArray : JsonVariant → JsonArray
  | array xs => ⟨true, xs⟩
  | _ => ⟨false, []⟩

end JsonVariant

namespace JsonArray

/-- Method `size()`. -/
def size (arr : JsonArray) : Nat := arr.elems.length

/-- Call `copyTo(uint16_t*, len)`: the first `len` elements, each coerced to
`uint16_t`, in order. -/
def copyTo (arr : JsonArray) (len : Nat) : List Nat :=
  (arr.elems.take len).map (JsonVariant.asUInt 16)

/-- Element access `arr[i]` (an undefined value past the end). -/
def get (arr : JsonArray) (i : Nat) : JsonVariant :=
  arr.elems.getD i JsonVariant.undefined

end JsonArray

namespace JsonObject

/-- Method `containsKey(key)`. -/
def containsKey (obj : JsonObject) (key : String) : Bool :=
  (obj.members.lookup key).isSome

/-- Subscript `obj[key]` read as a value (undefined when the key is absent). -/
def get (obj : JsonObject) (key : String) : JsonVariant :=
  (obj.members.lookup key).getD JsonVariant.undefined

/-- Assignment `obj[key] = value`: overwrites the member when the key exists,
appends a member otherwise. -/
def set (obj : JsonObject) (key : String) (value : JsonVariant) : JsonObject :=
  if obj.containsKey key then
    { obj with members := obj.members.map (fun m => if m.1 == key then (m.1, value) else m) }
  else
    { obj with members := obj.members ++ [(key, value)] }

/-- The document without the members named `key`. -/
def remove (obj : JsonObject) (key : String) : JsonObject :=
  { obj with members := obj.members.filter (fun m => !(m.1 == key)) }

/-- Result of `createObject()`. -/
def empty : JsonObject := ⟨true, []⟩

end JsonObject

/-! ## Settings -/

/-- The two radio drivers. -/
inductive RadioInterfaceType where
  | nRF24
  | LT8900
  deriving DecidableEq, Repr

/-- Modelled from the spec: the `GatewayConfig` record, whose declaration is
in a header and not in `Settings.cpp`.  `deviceId` is an unsigned 16-bit
integer; `port` and `protocolVersion` are "text or integer" and hold the
document value handed to the constructor. -/
structure GatewayConfig where
  deviceId : Nat
  port : JsonVariant
  protocolVersion : JsonVariant

/-- The configuration record.  `deviceIds` and `gatewayConfigs` are the two
owned arrays (`none` = null pointer); a `none` cell of `gatewayConfigs` is a
pointer cell that was never assigned. -/
structure Settings where
  adminUsername : String
  adminPassword : String
  cePin : Nat
  csnPin : Nat
  resetPin : Nat
  radioInterfaceType : RadioInterfaceType
  packetRepeats : Nat
  httpRepeatFactor : Nat
  _autoRestartPeriod : Nat
  _mqttServer : String
  mqttUsername : String
  mqttPassword : String
  mqttTopicPattern : String
  deviceIds : Option (List Nat)
  numDeviceIds : Nat
  gatewayConfigs : Option (List (Option GatewayConfig))
  numGatewayConfigs : Nat

/-- Case-insensitive comparison of two texts (`String::equalsIgnoreCase`). -/
def equalsIgnoreCase (a b : String) : Bool :=
  a.data.map Char.toLower == b.data.map Char.toLower

/-- Source function `Settings::typeFromString`. -/
def typeFromString (s : String) : RadioInterfaceType :=
  if equalsIgnoreCase s "lt8900" then RadioInterfaceType.LT8900
  else RadioInterfaceType.nRF24

/-- Source function `Settings::typeToString`. -/
def typeToString : RadioInterfaceType → String
  | RadioInterfaceType.LT8900 => "LT8900"
  | RadioInterfaceType.nRF24 => "nRF24"

/-- Modelled from the spec: the helper `setIfPresent` of the header, "direct
key-presence-gated assignment with type coercion delegated to the Document
Codec".  `as` is the coercion to the type of the assigned field; the result
is the new value of the field `var`. -/
def setIfPresent {α : Type} (as : JsonVariant → α) (obj : JsonObject) (key : String)
    (var : α) : α :=
  if obj.containsKey key then as (obj.get key) else var

/-- Modelled from the spec: `parseInt<uint16_t>` of the integer-parsing
header, applied to an element of a gateway triple: the element read as an
unsigned 16-bit integer. -/
def parseInt (v : JsonVariant) : Nat := JsonVariant.asUInt 16 v

/-- Source function `Settings::updateDeviceIds`.  Releasing the old array has
no effect on the values of the model. -/
def updateDeviceIds (s : Settings) (arr : JsonArray) : Settings :=
  if arr.success then
    { s with deviceIds := some (arr.copyTo arr.size), numDeviceIds := arr.size }
  else s

/-- One turn of the loop of `updateGatewayConfigs`: the cell for element
`elem`, assigned only when the element is an array of exactly three values. -/
def gatewayConfigSlot (elem : JsonVariant) : Option GatewayConfig :=
  let params := elem.asArray
  if params.success && params.size == 3 then
    some ⟨parseInt (params.get 0), params.get 1, params.get 2⟩
  else none

/-- Source function `Settings::updateGatewayConfigs`: a new pointer array of
`arr.size()` cells, cell `i` assigned from element `i` when it has the
expected shape and left unassigned otherwise. -/
def updateGatewayConfigs (s : Settings) (arr : JsonArray) : Settings :=
  if arr.success then
    { s with gatewayConfigs := some (arr.elems.map gatewayConfigSlot),
             numGatewayConfigs := arr.size }
  else s

/-- Source function `Settings::patch`.  Each statement of the source updates
the one field it names. -/
def patch (s : Settings) (parsedSettings : JsonObject) : Settings :=
  if parsedSettings.success then
    let s := { s with
      adminUsername :=
        setIfPresent JsonVariant.asString parsedSettings "admin_username" s.adminUsername }
    let s := { s with
      adminPassword :=
        setIfPresent JsonVariant.asString parsedSettings "admin_password" s.adminPassword }
    let s := { s with
      cePin := setIfPresent (JsonVariant.asUInt 8) parsedSettings "ce_pin" s.cePin }
    let s := { s with
      csnPin := setIfPresent (JsonVariant.asUInt 8) parsedSettings "csn_pin" s.csnPin }
    let s := { s with
      resetPin := setIfPresent (JsonVariant.asUInt 8) parsedSettings "reset_pin" s.resetPin }
    let s := { s with
      packetRepeats :=
        setIfPresent (JsonVariant.asUInt 32) parsedSettings "packet_repeats" s.packetRepeats }
    let s := { s with
      httpRepeatFactor :=
        setIfPresent (JsonVariant.asUInt 32) parsedSettings "http_repeat_factor"
          s.httpRepeatFactor }
    let s := { s with
      _autoRestartPeriod :=
        setIfPresent (JsonVariant.asUInt 32) parsedSettings "auto_restart_period"
          s._autoRestartPeriod }
    let s := { s with
      _mqttServer := setIfPresent JsonVariant.asString parsedSettings "mqtt_server" s._mqttServer }
    let s := { s with
      mqttUsername :=
        setIfPresent JsonVariant.asString parsedSettings "mqtt_username" s.mqttUsername }
    let s := { s with
      mqttPassword :=
        setIfPresent JsonVariant.asString parsedSettings "mqtt_password" s.mqttPassword }
    let s := { s with
      mqttTopicPattern :=
        setIfPresent JsonVariant.asString parsedSettings "mqtt_topic_pattern"
          s.mqttTopicPattern }
    let s :=
      if parsedSettings.containsKey "radio_interface_type" then
        { s with
          radioInterfaceType :=
            typeFromString (parsedSettings.get "radio_interface_type").asString }
      else s
    let s :=
      if parsedSettings.containsKey "device_ids" then
        updateDeviceIds s (parsedSettings.get "device_ids").asArray
      else s
    let s :=
      if parsedSettings.containsKey "gateway_configs" then
        updateGatewayConfigs s (parsedSettings.get "gateway_configs").asArray
      else s
    s
  else s

/-- Unsigned integers as document values. -/
def intValues (ns : List Nat) : List JsonVariant :=
  ns.map (fun (n : Nat) => JsonVariant.integer (Int.ofNat n))

/-- Call `arr.copyFrom(ptr, n)` in `serialize`: the first `n` cells behind
`ptr`; a read past the allocated cells is a fault (`none`). -/
def readCells (cells : List Nat) (n : Nat) : Option (List Nat) :=
  if n ≤ cells.length then some (cells.take n) else none

/-- The triple `[deviceId, port, protocolVersion]` added for one gateway. -/
def gatewayTriple (g : GatewayConfig) : JsonVariant :=
  JsonVariant.array [JsonVariant.integer (Int.ofNat g.deviceId), g.port, g.protocolVersion]

/-- The loop over `gatewayConfigs` in `serialize`: cells `0 .. n-1` are
dereferenced in order.  Dereferencing a cell that was never assigned, or a
cell past the allocated ones, is a fault (`none`). -/
def gatewayElements : Nat → List (Option GatewayConfig) → Option (List JsonVariant)
  | 0, _ => some []
  | _ + 1, [] => none
  | _ + 1, none :: _ => none
  | n + 1, some g :: cells => (gatewayElements n cells).map (fun elems => gatewayTriple g :: elems)

/-- Source function `Settings::serialize`, up to the document `root` that is
printed to the stream; `none` when building it commits a memory fault. -/
def serialize (s : Settings) : Option JsonObject := do
  let root := JsonObject.empty
  let root := root.set "admin_username" (JsonVariant.string s.adminUsername)
  let root := root.set "admin_password" (JsonVariant.string s.adminPassword)
  let root := root.set "ce_pin" (JsonVariant.integer (Int.ofNat s.cePin))
  let root := root.set "csn_pin" (JsonVariant.integer (Int.ofNat s.csnPin))
  let root := root.set "reset_pin" (JsonVariant.integer (Int.ofNat s.resetPin))
  let root := root.set "radio_interface_type"
    (JsonVariant.string (typeToString s.radioInterfaceType))
  let root := root.set "packet_repeats" (JsonVariant.integer (Int.ofNat s.packetRepeats))
  let root := root.set "http_repeat_factor" (JsonVariant.integer (Int.ofNat s.httpRepeatFactor))
  let root := root.set "auto_restart_period"
    (JsonVariant.integer (Int.ofNat s._autoRestartPeriod))
  let root := root.set "mqtt_server" (JsonVariant.string s._mqttServer)
  let root := root.set "mqtt_username" (JsonVariant.string s.mqttUsername)
  let root := root.set "mqtt_password" (JsonVariant.string s.mqttPassword)
  let root := root.set "mqtt_topic_pattern" (JsonVariant.string s.mqttTopicPattern)
  let root ←
    match s.deviceIds with
    | some cells => do
      let arr ← readCells cells s.numDeviceIds
      pure (root.set "device_ids" (JsonVariant.array (intValues arr)))
    | none => pure root
  let root ←
    match s.gatewayConfigs with
    | some cells => do
      let arr ← gatewayElements s.numGatewayConfigs cells
      pure (root.set "gateway_configs" (JsonVariant.array arr))
    | none => pure root
  pure root

/-- Source function `Settings::toJson` (compact form): the text of the
document built by `serialize`. -/
def toJson (s : Settings) : Option String :=
  (serialize s).map (fun root => (JsonVariant.object root.members).printTo)

/-- Modelled from the spec: a freshly constructed instance, as left by the
constructor of the header before any patch: it owns no array (both pointers
null, both counts zero).  The compiled-in scalar defaults play no part. -/
def Settings.Fresh (s : Settings) : Prop :=
  s.deviceIds = none ∧ s.numDeviceIds = 0 ∧ s.gatewayConfigs = none ∧ s.numGatewayConfigs = 0

/-- States reached from `d` by a sequence of `patch` calls on arbitrary
documents. -/
inductive Reachable (d : Settings) : Settings → Prop
  | init : Reachable d d
  | step {s : Settings} (doc : JsonObject) : Reachable d s → Reachable d (patch s doc)

/-- Number of cells of the array behind `deviceIds` (none behind a null pointer). -/
def Settings.deviceIdsLength (s : Settings) : Nat :=
  match s.deviceIds with
  | some cells => cells.length
  | none => 0

/-! ## Derived accessors -/

/-- Source function `Settings::hasAuthSettings`. -/
def hasAuthSettings (s : Settings) : Bool :=
  decide (s.adminUsername.length > 0) && decide (s.adminPassword.length > 0)

/-- Source function `Settings::isAutoRestartEnabled`. -/
def isAutoRestartEnabled (s : Settings) : Bool :=
  decide (s._autoRestartPeriod > 0)

/-- Source function `Settings::getAutoRestartPeriod`.  The constant
`MINIMUM_RESTART_PERIOD` comes from a header and is a parameter here; the
source casts it to the 32-bit `size_t` before taking the maximum.  The method
assigns no field. -/
def getAutoRestartPeriod (MINIMUM_RESTART_PERIOD : Nat) (s : Settings) : Nat :=
  if s._autoRestartPeriod = 0 then 0
  else max s._autoRestartPeriod (MINIMUM_RESTART_PERIOD % 2 ^ 32)

/-- Method `String::indexOf(c)` on the characters of a text: the index of the
first occurrence of `c`, or `-1` when there is none. -/
def indexOf (c : Char) : List Char → Int
  | [] => -1
  | x :: xs => if x = c then 0 else if indexOf c xs = -1 then -1 else indexOf c xs + 1

/-- Macro `PORT_POSITION(s)` of the source: `( s.indexOf(':') )`. -/
def PORT_POSITION (s : String) : Int := indexOf ':' s.data

/-- Method `String::substring(left, right)`: the characters at the indices
`left .. right - 1`, with the bounds swapped when out of order and `right`
cut to the length. -/
def substring (s : String) (left right : Nat) : String :=
  let l := if left > right then right else left
  let r := if left > right then left else right
  if l ≥ s.data.length then "" else String.mk ((s.data.take (min r s.data.length)).drop l)

/-- The C string `s.c_str() + offset`: the characters from index `offset` on. -/
def cstrFrom (s : String) (offset : Nat) : List Char := s.data.drop offset

/-- White space of the C library (`isspace`). -/
def isSpace (c : Char) : Bool :=
  c = ' ' || c = '\t' || c = '\n' || c = Char.ofNat 11 || c = Char.ofNat 12 || c = '\r'

/-- Leading white space dropped, as `atoi` does first. -/
def skipSpaces : List Char → List Char
  | [] => []
  | c :: cs => if isSpace c then skipSpaces cs else c :: cs

/-- The decimal digits at the head of a text, accumulated onto `acc`; the
first character that is no digit ends the number. -/
def digitsValue : List Char → Nat → Nat
  | [], acc => acc
  | c :: cs, acc => if c.isDigit then digitsValue cs (acc * 10 + (c.toNat - '0'.toNat)) else acc

/-- The number `atoi` reads: white space, an optional sign, decimal digits;
text that does not start with a number reads as zero. -/
def atoiValue (s : List Char) : Int :=
  match skipSpaces s with
  | '-' :: cs => - (digitsValue cs 0 : Int)
  | '+' :: cs => (digitsValue cs 0 : Int)
  | cs => (digitsValue cs 0 : Int)

/-- Library function `atoi` with a 32-bit `int`: the number read when it is
representable, and no defined result (`none`) when it is not. -/
def atoi (s : List Char) : Option Int :=
  if - (2 ^ 31 : Int) ≤ atoiValue s ∧ atoiValue s ≤ 2 ^ 31 - 1 then some (atoiValue s) else none

/-- Source function `Settings::mqttServer`. -/
def mqttServer (s : Settings) : String :=
  let pos := PORT_POSITION s._mqttServer
  if pos = -1 then s._mqttServer
  else substring s._mqttServer 0 pos.toNat

/-- The text handed to `atoi` in `mqttPort`: `_mqttServer.c_str() + pos + 1`. -/
def portText (s : Settings) : List Char :=
  cstrFrom s._mqttServer ((PORT_POSITION s._mqttServer + 1).toNat)

/-- Source function `Settings::mqttPort`.  The constant `DEFAULT_MQTT_PORT`
comes from a header and is a parameter here.  The result type is `uint16_t`:
the returned `int` is reduced modulo `2 ^ 16`. -/
def mqttPort (DEFAULT_MQTT_PORT : Nat) (s : Settings) : Option Nat :=
  let pos := PORT_POSITION s._mqttServer
  if pos = -1 then some (DEFAULT_MQTT_PORT % 2 ^ 16)
  else (atoi (portText s)).map (fun v => (v % (2 ^ 16 : Int)).toNat)

/-! ## Persistence -/

/-- The byte store collaborator, as far as the settings blob goes: the text of
the blob `SETTINGS_FILE` when it exists, and whether opening it for writing
succeeds.  A blob that exists can be read. -/
structure Store where
  file : Option String
  writable : Bool

/-- Call `SPIFFS.exists(SETTINGS_FILE)`. -/
def Store.hasFile (st : Store) : Bool := st.file.isSome

/-- The text side of the document codec: `parseObject` of a text and the
printer that `serialize` ends with.  Both are the codec's own and are taken
as given. -/
structure DocumentCodec where
  parseObject : String → JsonObject
  printObject : JsonObject → String

/-- Source function `Settings::deserialize`. -/
def deserialize (codec : DocumentCodec) (settings : Settings) (json : String) : Settings :=
  patch settings (codec.parseObject json)

/-- Method `readStringUntil(terminator)`: the text up to the first terminator. -/
def readStringUntil (terminator : Char) (text : String) : String :=
  String.mk (text.data.takeWhile (fun c => c != terminator))

/-- Source function `Settings::save`: opening for writing creates the blob;
when the open fails the failure is logged and the store is left as it is.
The result is `none` when `serialize` commits a memory fault. -/
def save (codec : DocumentCodec) (s : Settings) (st : Store) : Option Store :=
  if st.writable then
    (serialize s).map (fun root => { st with file := some (codec.printObject root) })
  else some st

/-- Source function `Settings::load`.  The constant `SETTINGS_TERMINATOR`
comes from a header and is a parameter here. -/
def load (codec : DocumentCodec) (SETTINGS_TERMINATOR : Char) (settings : Settings)
    (st : Store) : Option (Settings × Store) :=
  match st.file with
  | some contents =>
    some (deserialize codec settings (readStringUntil SETTINGS_TERMINATOR contents), st)
  | none => (save codec settings st).map (fun st2 => (settings, st2))

/-! ## Owned allocations -/

/-- The live heap blocks that `Settings` allocates, counted by kind: arrays of
device ids, pointer arrays of gateways, and `GatewayConfig` records. -/
structure Heap where
  deviceIdArrays : Nat
  gatewayArrays : Nat
  gatewayRecords : Nat
  deriving DecidableEq, Repr

/-- Allocation effects of `Settings::updateDeviceIds`: `delete` of the old
array when the pointer is non-null, then `new uint16_t[arr.size()]`. -/
def updateDeviceIdsHeap (h : Heap) (s : Settings) (arr : JsonArray) : Heap :=
  if arr.success then
    let h := if s.deviceIds.isSome then { h with deviceIdArrays := h.deviceIdArrays - 1 } else h
    { h with deviceIdArrays := h.deviceIdArrays + 1 }
  else h

/-- Allocation effects of `Settings::updateGatewayConfigs`: `delete[]` of the
old pointer array when non-null (the records its cells point to are not
deleted), then `new GatewayConfig*[arr.size()]`, then one `new GatewayConfig`
for every element of the expected shape. -/
def updateGatewayConfigsHeap (h : Heap) (s : Settings) (arr : JsonArray) : Heap :=
  if arr.success then
    let h := if s.gatewayConfigs.isSome then { h with gatewayArrays := h.gatewayArrays - 1 } else h
    let h := { h with gatewayArrays := h.gatewayArrays + 1 }
    { h with
      gatewayRecords := h.gatewayRecords + ((arr.elems.map gatewayConfigSlot).filter Option.isSome).length }
  else h

/-- Allocation effects of `Settings::patch` on the heap `h`, from the state
`s`: the scalar assignments allocate nothing that outlives them. -/
def patchHeap (h : Heap) (s : Settings) (parsedSettings : JsonObject) : Heap :=
  if parsedSettings.success then
    let h :=
      if parsedSettings.containsKey "device_ids" then
        updateDeviceIdsHeap h s (parsedSettings.get "device_ids").asArray
      else h
    let h :=
      if parsedSettings.containsKey "gateway_configs" then
        updateGatewayConfigsHeap h s (parsedSettings.get "gateway_configs").asArray
      else h
    h
  else h

/-- The blocks a state refers to, counted by kind: what the heap holds when
nothing is leaked. -/
def Settings.owned (s : Settings) : Heap where
  deviceIdArrays := if s.deviceIds.isSome then 1 else 0
  gatewayArrays := if s.gatewayConfigs.isSome then 1 else 0
  gatewayRecords :=
    match s.gatewayConfigs with
    | some cells => (cells.filter Option.isSome).length
    | none => 0

/-- The fifteen keys that `patch` reads. -/
def recognizedKeys : List String :=
  ["admin_username", "admin_password", "ce_pin", "csn_pin", "reset_pin", "packet_repeats",
   "http_repeat_factor", "auto_restart_period", "mqtt_server", "mqtt_username",
   "mqtt_password", "mqtt_topic_pattern", "radio_interface_type", "device_ids",
   "gateway_configs"]

/-! ## Concrete data used in examples -/

/-- A fresh instance with sample scalar values. -/
def sampleSettings : Settings where
  adminUsername := ""
  adminPassword := ""
  cePin := 16
  csnPin := 15
  resetPin := 0
  radioInterfaceType := RadioInterfaceType.nRF24
  packetRepeats := 50
  httpRepeatFactor := 5
  _autoRestartPeriod := 0
  _mqttServer := ""
  mqttUsername := ""
  mqttPassword := ""
  mqttTopicPattern := ""
  deviceIds := none
  numDeviceIds := 0
  gatewayConfigs := none
  numGatewayConfigs := 0

/-- A document with the single member `key : value`. -/
def singleton (key : String) (value : JsonVariant) : JsonObject :=
  ⟨true, [(key, value)]⟩

/-- An array of integers as a document value. -/
def intArray (ns : List Nat) : JsonVariant :=
  JsonVariant.array (intValues ns)

/-- The document of the malformed-element example:
`gateway_configs = [[1,"80","v1"], ["bad"], [3,"81","v2"]]`. -/
def gapExample : JsonObject :=
  singleton "gateway_configs" (JsonVariant.array [
    JsonVariant.array [JsonVariant.integer 1, JsonVariant.string "80", JsonVariant.string "v1"],
    JsonVariant.array [JsonVariant.string "bad"],
    JsonVariant.array [JsonVariant.integer 3, JsonVariant.string "81", JsonVariant.string "v2"]])

/-- A document that sets `device_ids` to the empty array. -/
def emptyDeviceIds : JsonObject := singleton "device_ids" (intArray [])

/-- A document whose only gateway element is malformed:
`gateway_configs = [["bad"]]`. -/
def badGateway : JsonObject :=
  singleton "gateway_configs" (JsonVariant.array [JsonVariant.array [JsonVariant.string "bad"]])

/-- Number of cells of the array behind `gatewayConfigs` (none behind a null
pointer). -/
def Settings.gatewayConfigsLength (s : Settings) : Nat :=
  match s.gatewayConfigs with
  | some cells => cells.length
  | none => 0

/-- Both counts equal the number of allocated cells of their array. -/
def Settings.CountsMatch (s : Settings) : Prop :=
  s.numDeviceIds = s.deviceIdsLength ∧ s.numGatewayConfigs = s.gatewayConfigsLength

/-- Every cell of `gatewayConfigs` has been assigned a record. -/
def Settings.Populated (s : Settings) : Prop :=
  match s.gatewayConfigs with
  | some cells => ∀ c ∈ cells, c.isSome = true
  | none => True

/-- The stored values fit the types of their fields: 8-bit pins, 32-bit
`size_t` counters, 16-bit device ids, and a text or an integer for the port
and the protocol version of a gateway. -/
def Settings.WellTyped (s : Settings) : Prop :=
  s.cePin < 2 ^ 8 ∧ s.csnPin < 2 ^ 8 ∧ s.resetPin < 2 ^ 8 ∧
  s.packetRepeats < 2 ^ 32 ∧ s.httpRepeatFactor < 2 ^ 32 ∧ s._autoRestartPeriod < 2 ^ 32 ∧
  (∀ cells, s.deviceIds = some cells → ∀ n ∈ cells, n < 2 ^ 16) ∧
  (∀ cells, s.gatewayConfigs = some cells → ∀ g, some g ∈ cells →
    g.deviceId < 2 ^ 16 ∧ g.port.isTextOrInteger = true ∧
      g.protocolVersion.isTextOrInteger = true)

/-- The members written by the thirteen scalar assignments of `serialize`,
in the order of the assignments. -/
def scalarMembers (s : Settings) : List (String × JsonVariant) :=
  [("admin_username", JsonVariant.string s.adminUsername),
   ("admin_password", JsonVariant.string s.adminPassword),
   ("ce_pin", JsonVariant.integer (Int.ofNat s.cePin)),
   ("csn_pin", JsonVariant.integer (Int.ofNat s.csnPin)),
   ("reset_pin", JsonVariant.integer (Int.ofNat s.resetPin)),
   ("radio_interface_type", JsonVariant.string (typeToString s.radioInterfaceType)),
   ("packet_repeats", JsonVariant.integer (Int.ofNat s.packetRepeats)),
   ("http_repeat_factor", JsonVariant.integer (Int.ofNat s.httpRepeatFactor)),
   ("auto_restart_period", JsonVariant.integer (Int.ofNat s._autoRestartPeriod)),
   ("mqtt_server", JsonVariant.string s._mqttServer),
   ("mqtt_username", JsonVariant.string s.mqttUsername),
   ("mqtt_password", JsonVariant.string s.mqttPassword),
   ("mqtt_topic_pattern", JsonVariant.string s.mqttTopicPattern)]

/-- The triples of the assigned cells, in order. -/
def gatewayValues (cells : List (Option GatewayConfig)) : List JsonVariant :=
  cells.reduceOption.map gatewayTriple

/-- The member `device_ids` of the serialized document: present for a
non-null `deviceIds` only. -/
def deviceIdsMember (s : Settings) : List (String × JsonVariant) :=
  match s.deviceIds with
  | some cells => [("device_ids", JsonVariant.array (intValues cells))]
  | none => []

/-- The member `gateway_configs` of the serialized document: present for a
non-null `gatewayConfigs` only. -/
def gatewayConfigsMember (s : Settings) : List (String × JsonVariant) :=
  match s.gatewayConfigs with
  | some cells => [("gateway_configs", JsonVariant.array (gatewayValues cells))]
  | none => []

/-- A state with two device ids and two assigned gateway cells. -/
def populatedSettings : Settings :=
  { sampleSettings with
    adminUsername := "admin"
    radioInterfaceType := RadioInterfaceType.LT8900
    _mqttServer := "broker.local:1883"
    deviceIds := some [1, 2]
    numDeviceIds := 2
    gatewayConfigs := some [some ⟨1, JsonVariant.integer 5987, JsonVariant.integer 6⟩,
      some ⟨2, JsonVariant.string "5988", JsonVariant.string "5"⟩]
    numGatewayConfigs := 2 }

/-- A state whose single gateway cell was never assigned. -/
def gapSettings : Settings :=
  { sampleSettings with gatewayConfigs := some [none], numGatewayConfigs := 1 }

/-- A document with one recognized and one unrecognized member. -/
def extraKeyDoc : JsonObject :=
  ⟨true, [("packet_repeats", JsonVariant.integer 5), ("hostname", JsonVariant.string "hub")]⟩

/-- The character of a decimal digit. -/
def digitChar (d : Nat) : Char := Char.ofNat ('0'.toNat + d)

/-- The sample state with the stored `mqtt_server` text `r`. -/
def withMqttServer (r : String) : Settings := { sampleSettings with _mqttServer := r }

/-- A codec for the examples, in which nothing is parsed: it prints a document
in compact form and rejects every text. -/
def printOnlyCodec : DocumentCodec where
  parseObject := fun _ => ⟨false, []⟩
  printObject := fun root => (JsonVariant.object root.members).printTo

/-- A store without the blob that accepts writes. -/
def emptyStore : Store := ⟨none, true⟩

/-- A store without the blob on which opening for writing fails. -/
def closedStore : Store := ⟨none, false⟩

/-- A document with one well-formed gateway:
`gateway_configs = [[1,"80","v1"]]`. -/
def oneGateway : JsonObject :=
  singleton "gateway_configs" (JsonVariant.array [
    JsonVariant.array [JsonVariant.integer 1, JsonVariant.string "80", JsonVariant.string "v1"]])

/-- The heap before the first allocation. -/
def emptyHeap : Heap := ⟨0, 0, 0⟩

/-! ## Closed form of `patch` -/

/-- The state after `patch` with a valid document, field by field. -/
theorem patch_eq (s : Settings) (doc : JsonObject) (h : doc.success = true) :
    patch s doc =
      { adminUsername := setIfPresent JsonVariant.asString doc "admin_username" s.adminUsername
        adminPassword := setIfPresent JsonVariant.asString doc "admin_password" s.adminPassword
        cePin := setIfPresent (JsonVariant.asUInt 8) doc "ce_pin" s.cePin
        csnPin := setIfPresent (JsonVariant.asUInt 8) doc "csn_pin" s.csnPin
        resetPin := setIfPresent (JsonVariant.asUInt 8) doc "reset_pin" s.resetPin
        radioInterfaceType :=
          setIfPresent (fun v => typeFromString v.asString) doc "radio_interface_type"
            s.radioInterfaceType
        packetRepeats := setIfPresent (JsonVariant.asUInt 32) doc "packet_repeats" s.packetRepeats
        httpRepeatFactor :=
          setIfPresent (JsonVariant.asUInt 32) doc "http_repeat_factor" s.httpRepeatFactor
        _autoRestartPeriod :=
          setIfPresent (JsonVariant.asUInt 32) doc "auto_restart_period" s._autoRestartPeriod
        _mqttServer := setIfPresent JsonVariant.asString doc "mqtt_server" s._mqttServer
        mqttUsername := setIfPresent JsonVariant.asString doc "mqtt_username" s.mqttUsername
        mqttPassword := setIfPresent JsonVariant.asString doc "mqtt_password" s.mqttPassword
        mqttTopicPattern :=
          setIfPresent JsonVariant.asString doc "mqtt_topic_pattern" s.mqttTopicPattern
        deviceIds :=
          if doc.containsKey "device_ids" && (doc.get "device_ids").asArray.success then
            some ((doc.get "device_ids").asArray.copyTo (doc.get "device_ids").asArray.size)
          else s.deviceIds
        numDeviceIds :=
          if doc.containsKey "device_ids" && (doc.get "device_ids").asArray.success then
            (doc.get "device_ids").asArray.size
          else s.numDeviceIds
        gatewayConfigs :=
          if doc.containsKey "gateway_configs" && (doc.get "gateway_configs").asArray.success then
            some ((doc.get "gateway_configs").asArray.elems.map gatewayConfigSlot)
          else s.gatewayConfigs
        numGatewayConfigs :=
          if doc.containsKey "gateway_configs" && (doc.get "gateway_configs").asArray.success then
            (doc.get "gateway_configs").asArray.size
          else s.numGatewayConfigs } := by
  unfold patch setIfPresent updateDeviceIds updateGatewayConfigs
  simp only [h, if_true]
  cases doc.containsKey "radio_interface_type" <;>
  cases doc.containsKey "device_ids" <;>
  cases doc.containsKey "gateway_configs" <;>
  cases (doc.get "device_ids").asArray.success <;>
  cases (doc.get "gateway_configs").asArray.success <;> rfl

/-- With a document that failed to parse, `patch` changes nothing. -/
theorem patch_of_not_success (s : Settings) (doc : JsonObject) (h : doc.success = false) :
    patch s doc = s := by
  unfold patch
  simp [h]

/-- An absent key leaves the variable as it was. -/
theorem setIfPresent_absent {α : Type} (as : JsonVariant → α) (doc : JsonObject) (key : String)
    (var : α) (h : doc.containsKey key = false) : setIfPresent as doc key var = var := by
  simp [setIfPresent, h]

/-- Assigning twice from the same document is assigning once. -/
theorem setIfPresent_idem {α : Type} (as : JsonVariant → α) (doc : JsonObject) (key : String)
    (var : α) :
    setIfPresent as doc key (setIfPresent as doc key var) = setIfPresent as doc key var := by
  unfold setIfPresent
  split <;> rfl

/-- A key whose value reads as an array is present. -/
theorem containsKey_of_get_array (doc : JsonObject) (key : String) (A : List JsonVariant)
    (h : doc.get key = JsonVariant.array A) : doc.containsKey key = true := by
  unfold JsonObject.get at h
  unfold JsonObject.containsKey
  cases hl : doc.members.lookup key with
  | none => rw [hl] at h; cases h
  | some v => rfl

/-- An integer that fits `w` bits is read back unchanged. -/
theorem asUInt_integer (w n : Nat) (h : n < 2 ^ w) :
    JsonVariant.asUInt w (JsonVariant.integer (Int.ofNat n)) = n := by
  have h2 : ((n : Int) % (2 ^ w : Int)) = (n : Int) := by
    apply Int.emod_eq_of_lt (Int.ofNat_nonneg n)
    exact_mod_cast h
  show ((n : Int) % (2 ^ w : Int)).toNat = n
  rw [h2]
  rfl

/-- Integers that fit `w` bits are read back unchanged, element by element. -/
theorem map_asUInt_intArray (w : Nat) (ids : List Nat) (h : ∀ n ∈ ids, n < 2 ^ w) :
    (intValues ids).map (JsonVariant.asUInt w) = ids := by
  induction ids with
  | nil => rfl
  | cons a rest ih =>
    show JsonVariant.asUInt w (JsonVariant.integer (Int.ofNat a)) ::
      (intValues rest).map (JsonVariant.asUInt w) = a :: rest
    rw [asUInt_integer w a (h a (List.mem_cons_self a rest)),
      ih (fun n hn => h n (List.mem_cons_of_mem a hn))]

/-- The device-id array after `patch` with an array value under `device_ids`. -/
theorem patch_deviceIds_of_array (s : Settings) (doc : JsonObject) (A : List JsonVariant)
    (h : doc.success = true) (hA : doc.get "device_ids" = JsonVariant.array A) :
    (patch s doc).deviceIds = some (A.map (JsonVariant.asUInt 16)) ∧
      (patch s doc).numDeviceIds = A.length := by
  rw [patch_eq s doc h]
  simp [containsKey_of_get_array doc _ A hA, hA, JsonVariant.asArray, JsonArray.copyTo,
    JsonArray.size]

/-- A three-element array assigns the cell. -/
theorem gatewayConfigSlot_triple (a b c : JsonVariant) :
    gatewayConfigSlot (JsonVariant.array [a, b, c]) = some ⟨parseInt a, b, c⟩ := rfl

/-- Anything but a three-element array leaves the cell unassigned. -/
theorem gatewayConfigSlot_malformed (v : JsonVariant)
    (h : ¬ ∃ a b c, v = JsonVariant.array [a, b, c]) : gatewayConfigSlot v = none := by
  cases v with
  | array xs =>
    match xs with
    | [] => rfl
    | [_] => rfl
    | [_, _] => rfl
    | [a, b, c] => exact absurd ⟨a, b, c, rfl⟩ h
    | _ :: _ :: _ :: _ :: rest =>
      simp [gatewayConfigSlot, JsonVariant.asArray, JsonArray.size]
  | _ => rfl

/-- The gateway array after `patch` with an array value under `gateway_configs`. -/
theorem patch_gatewayConfigs_of_array (s : Settings) (doc : JsonObject) (A : List JsonVariant)
    (h : doc.success = true) (hA : doc.get "gateway_configs" = JsonVariant.array A) :
    (patch s doc).gatewayConfigs = some (A.map gatewayConfigSlot) ∧
      (patch s doc).numGatewayConfigs = A.length := by
  rw [patch_eq s doc h]
  simp [containsKey_of_get_array doc _ A hA, hA, JsonVariant.asArray, JsonArray.size]

/-- Removing a key does not change the lookup of another key. -/
theorem lookup_filter_ne (l : List (String × JsonVariant)) (k key : String) (hne : key ≠ k) :
    List.lookup key (l.filter (fun m => !(m.1 == k))) = List.lookup key l := by
  induction l with
  | nil => rfl
  | cons m rest ih =>
    obtain ⟨mk, mv⟩ := m
    by_cases hmk : mk = k
    · subst hmk
      have h1 : (key == mk) = false := by simpa using hne
      simp [List.filter, List.lookup, h1, ih]
    · have h2 : (mk == k) = false := by simpa using hmk
      simp only [List.filter, h2, Bool.not_false, List.lookup, ih]

/-- A removed key is no longer found. -/
theorem lookup_filter_self (l : List (String × JsonVariant)) (k : String) :
    List.lookup k (l.filter (fun m => !(m.1 == k))) = none := by
  induction l with
  | nil => rfl
  | cons m rest ih =>
    obtain ⟨mk, mv⟩ := m
    by_cases hmk : mk = k
    · subst hmk
      simp [List.filter, ih]
    · have h2 : (mk == k) = false := by simpa using hmk
      have h3 : (k == mk) = false := by simpa using (fun e : k = mk => hmk e.symm)
      simp only [List.filter, h2, Bool.not_false, List.lookup, h3, ih]

/-- Presence of another key is unchanged by `remove`. -/
theorem containsKey_remove_ne (doc : JsonObject) (k key : String) (hne : key ≠ k) :
    (doc.remove k).containsKey key = doc.containsKey key := by
  simp only [JsonObject.containsKey, JsonObject.remove, lookup_filter_ne _ k key hne]

/-- The value of another key is unchanged by `remove`. -/
theorem get_remove_ne (doc : JsonObject) (k key : String) (hne : key ≠ k) :
    (doc.remove k).get key = doc.get key := by
  simp only [JsonObject.get, JsonObject.remove, lookup_filter_ne _ k key hne]

/-- The removed key is absent. -/
theorem containsKey_remove_self (doc : JsonObject) (k : String) :
    (doc.remove k).containsKey k = false := by
  simp only [JsonObject.containsKey, JsonObject.remove, lookup_filter_self, Option.isSome_none]

/-- A value that is not an array coerces to the invalid array. -/
theorem asArray_success_false (v : JsonVariant) (h : ∀ A, v ≠ JsonVariant.array A) :
    v.asArray.success = false := by
  cases v with
  | array xs => exact absurd rfl (h xs)
  | _ => rfl

/-- One `patch` preserves `numDeviceIds = length of deviceIds`. -/
theorem patch_numDeviceIds_eq_length (s : Settings) (doc : JsonObject)
    (h : s.numDeviceIds = s.deviceIdsLength) :
    (patch s doc).numDeviceIds = (patch s doc).deviceIdsLength := by
  cases hs : doc.success with
  | false => rw [patch_of_not_success s doc hs]; exact h
  | true =>
    rw [patch_eq s doc hs]
    unfold Settings.deviceIdsLength at *
    cases hc : (doc.containsKey "device_ids" && (doc.get "device_ids").asArray.success) with
    | false => simpa using h
    | true => simp [JsonArray.copyTo, JsonArray.size]

/-- The count matches the array in every state reachable from a fresh one. -/
theorem reachable_numDeviceIds (d s : Settings) (hd : d.Fresh) (hr : Reachable d s) :
    s.numDeviceIds = s.deviceIdsLength := by
  induction hr with
  | init =>
    obtain ⟨h1, h2, _, _⟩ := hd
    simp [Settings.deviceIdsLength, h1, h2]
  | step doc _ ih => exact patch_numDeviceIds_eq_length _ doc ih

/-- Assigning a key that is not yet in the object appends a member. -/
theorem set_new (b : Bool) (ms : List (String × JsonVariant)) (key : String) (v : JsonVariant)
    (h : List.lookup key ms = none) :
    (JsonObject.mk b ms).set key v = ⟨b, ms ++ [(key, v)]⟩ := by
  simp [JsonObject.set, JsonObject.containsKey, h]

/-- When every cell is assigned the loop of `serialize` yields all triples. -/
theorem gatewayElements_all (cells : List (Option GatewayConfig))
    (h : ∀ c ∈ cells, c.isSome = true) :
    gatewayElements cells.length cells = some (gatewayValues cells) := by
  unfold gatewayValues
  induction cells with
  | nil => rfl
  | cons c rest ih =>
    cases c with
    | none => simpa using h none (List.mem_cons_self _ _)
    | some g =>
      have ih2 := ih (fun c hc => h c (List.mem_cons_of_mem _ hc))
      simp [gatewayElements, ih2, List.reduceOption_cons_of_some]

/-- The document built by `serialize` for a state with matching counts and no unassigned cell. -/
theorem serialize_eq (s : Settings) (hc : s.CountsMatch) (hp : s.Populated) :
    serialize s = some ⟨true, scalarMembers s ++ deviceIdsMember s ++ gatewayConfigsMember s⟩ := by
  obtain ⟨hd, hg⟩ := hc
  unfold Settings.deviceIdsLength at hd
  unfold Settings.gatewayConfigsLength at hg
  unfold Settings.Populated at hp
  unfold serialize deviceIdsMember gatewayConfigsMember scalarMembers
  simp only [JsonObject.empty]
  cases hdi : s.deviceIds with
  | none =>
    cases hgc : s.gatewayConfigs with
    | none =>
      simp [set_new, List.lookup]
    | some cells =>
      rw [hgc] at hg hp
      simp only [] at hg hp
      simp [set_new, List.lookup, hg, gatewayElements_all cells hp]
  | some ids =>
    rw [hdi] at hd
    simp only [] at hd
    cases hgc : s.gatewayConfigs with
    | none =>
      simp [set_new, List.lookup, hd, readCells]
    | some cells =>
      rw [hgc] at hg hp
      simp only [] at hg hp
      simp [set_new, List.lookup, hg, hd, readCells, gatewayElements_all cells hp]

/-- The name of a radio type maps back to the type. -/
theorem typeFromString_typeToString (t : RadioInterfaceType) :
    typeFromString (typeToString t) = t := by
  cases t <;> decide

/-- The triple of a record is read back as that record. -/
theorem gatewayConfigSlot_gatewayTriple (g : GatewayConfig) (h : g.deviceId < 2 ^ 16) :
    gatewayConfigSlot (gatewayTriple g) = some g := by
  unfold gatewayTriple
  rw [gatewayConfigSlot_triple]
  unfold parseInt
  rw [asUInt_integer 16 g.deviceId h]

/-- Reading back the triples of fully assigned cells gives the cells. -/
theorem map_slot_gatewayValues (cells : List (Option GatewayConfig))
    (hp : ∀ c ∈ cells, c.isSome = true) (ht : ∀ g, some g ∈ cells → g.deviceId < 2 ^ 16) :
    (gatewayValues cells).map gatewayConfigSlot = cells := by
  unfold gatewayValues
  induction cells with
  | nil => rfl
  | cons c rest ih =>
    cases c with
    | none => simpa using hp none (List.mem_cons_self _ _)
    | some g =>
      rw [List.reduceOption_cons_of_some, List.map_cons, List.map_cons,
        gatewayConfigSlot_gatewayTriple g (ht g (List.mem_cons_self _ _)),
        ih (fun c hc => hp c (List.mem_cons_of_mem _ hc))
          (fun g hg => ht g (List.mem_cons_of_mem _ hg))]

/-- Fully assigned cells give one triple each. -/
theorem length_gatewayValues (cells : List (Option GatewayConfig))
    (hp : ∀ c ∈ cells, c.isSome = true) : (gatewayValues cells).length = cells.length := by
  unfold gatewayValues
  induction cells with
  | nil => rfl
  | cons c rest ih =>
    cases c with
    | none => simpa using hp none (List.mem_cons_self _ _)
    | some g =>
      rw [List.reduceOption_cons_of_some, List.map_cons, List.length_cons, List.length_cons,
        ih (fun c hc => hp c (List.mem_cons_of_mem _ hc))]

/-- One document value per integer. -/
theorem length_intValues (ns : List Nat) : (intValues ns).length = ns.length := by
  unfold intValues
  exact List.length_map _ _

/-- The triple at index `i` is the triple of cell `i`. -/
theorem getElem?_gatewayValues (cells : List (Option GatewayConfig))
    (hp : ∀ c ∈ cells, c.isSome = true) (i : Nat) (g : GatewayConfig)
    (hi : cells[i]? = some (some g)) : (gatewayValues cells)[i]? = some (gatewayTriple g) := by
  unfold gatewayValues
  induction cells generalizing i with
  | nil => simp at hi
  | cons c rest ih =>
    cases c with
    | none => simpa using hp none (List.mem_cons_self _ _)
    | some g0 =>
      rw [List.reduceOption_cons_of_some, List.map_cons]
      cases i with
      | zero =>
        simp only [List.getElem?_cons_zero, Option.some.injEq] at hi
        subst hi
        exact List.getElem?_cons_zero
      | succ j =>
        simp only [List.getElem?_cons_succ] at hi
        simp only [List.getElem?_cons_succ]
        exact ih (fun c hc => hp c (List.mem_cons_of_mem _ hc)) j hi

/-- Every gateway cell of the populated sample state is assigned. -/
theorem populatedSettings_populated : populatedSettings.Populated := by
  simp [Settings.Populated, populatedSettings, sampleSettings]

/-- The populated sample state respects the field types. -/
theorem populatedSettings_wellTyped : populatedSettings.WellTyped := by
  simp [Settings.WellTyped, populatedSettings, sampleSettings, JsonVariant.isTextOrInteger]

/-- The example document agrees with the one-member document on every recognized key. -/
theorem extraKeyDoc_agrees :
    ∀ k ∈ recognizedKeys,
      extraKeyDoc.containsKey k = (singleton "packet_repeats" (JsonVariant.integer 5)).containsKey k ∧
      extraKeyDoc.get k = (singleton "packet_repeats" (JsonVariant.integer 5)).get k := by
  intro k hk
  simp only [recognizedKeys, List.mem_cons, List.mem_singleton, List.not_mem_nil, or_false] at hk
  rcases hk with h | h | h | h | h | h | h | h | h | h | h | h | h | h | h <;> subst h <;>
    exact ⟨rfl, rfl⟩

/-- The code of the character made from a valid code. -/
theorem toNat_ofNat_valid (n : Nat) (h : n.isValidChar) : (Char.ofNat n).toNat = n := by
  unfold Char.ofNat
  rw [dif_pos h]
  rfl

/-- Characters with the same code are equal. -/
theorem char_eq_of_toNat_eq (c d : Char) (h : c.toNat = d.toNat) : c = d := by
  rw [← Char.ofNat_toNat c, ← Char.ofNat_toNat d, h]

/-- The code of the lower-case form of a character. -/
theorem toLower_toNat (c : Char) :
    c.toLower.toNat = if 65 ≤ c.toNat ∧ c.toNat ≤ 90 then c.toNat + 32 else c.toNat := by
  unfold Char.toLower
  simp only [ge_iff_le]
  split
  · rename_i h
    exact toNat_ofNat_valid _ (Or.inl (by omega))
  · rfl

/-- A character whose lower case is the lower-case letter or digit `d`. -/
theorem toLower_eq_iff (c d : Char) (hd : d.toNat < 65 ∨ 90 < d.toNat) :
    c.toLower = d ↔ c = d ∨ (c.toNat + 32 = d.toNat ∧ 65 ≤ c.toNat ∧ c.toNat ≤ 90) := by
  constructor
  · intro h
    have h2 := congrArg Char.toNat h
    rw [toLower_toNat] at h2
    split at h2
    · right; omega
    · left; exact char_eq_of_toNat_eq c d h2
  · rintro (h | ⟨h1, h2, h3⟩)
    · subst h
      apply char_eq_of_toNat_eq
      rw [toLower_toNat]
      split
      · omega
      · rfl
    · apply char_eq_of_toNat_eq
      rw [toLower_toNat, if_pos ⟨h2, h3⟩, h1]

/-- The characters whose lower case is `l`. -/
theorem toLower_eq_l (c : Char) : c.toLower = 'l' ↔ c = 'l' ∨ c = 'L' := by
  rw [toLower_eq_iff c 'l' (Or.inr (by decide))]
  constructor
  · rintro (h | ⟨h1, _, _⟩)
    · exact Or.inl h
    · exact Or.inr (char_eq_of_toNat_eq c 'L' (by have : 'l'.toNat = 108 := rfl; have : 'L'.toNat = 76 := rfl; omega))
  · rintro (h | h)
    · exact Or.inl h
    · subst h; exact Or.inr (by decide)

/-- The characters whose lower case is `t`. -/
theorem toLower_eq_t (c : Char) : c.toLower = 't' ↔ c = 't' ∨ c = 'T' := by
  rw [toLower_eq_iff c 't' (Or.inr (by decide))]
  constructor
  · rintro (h | ⟨h1, _, _⟩)
    · exact Or.inl h
    · exact Or.inr (char_eq_of_toNat_eq c 'T' (by have : 't'.toNat = 116 := rfl; have : 'T'.toNat = 84 := rfl; omega))
  · rintro (h | h)
    · exact Or.inl h
    · subst h; exact Or.inr (by decide)

/-- Only a digit has that digit as its lower case. -/
theorem toLower_eq_digit (c d : Char) (hd : d.toNat < 65) : c.toLower = d ↔ c = d := by
  rw [toLower_eq_iff c d (Or.inl hd)]
  constructor
  · rintro (h | ⟨h1, h2, _⟩)
    · exact h
    · omega
  · intro h; exact Or.inl h

/-- The texts that equal `lt8900` up to case. -/
theorem equalsIgnoreCase_lt8900 (s : String) :
    equalsIgnoreCase s "lt8900" = true ↔
      ∃ a b, s.data = [a, b, '8', '9', '0', '0'] ∧ (a = 'l' ∨ a = 'L') ∧ (b = 't' ∨ b = 'T') := by
  unfold equalsIgnoreCase
  have hr : List.map Char.toLower "lt8900".data = ['l', 't', '8', '9', '0', '0'] := by decide
  rw [hr, beq_iff_eq]
  constructor
  · intro h
    match hs : s.data, h with
    | [a, b, c, d, e, f], h =>
      simp only [List.map_cons, List.map_nil, List.cons.injEq, and_true] at h
      obtain ⟨ha, hb, hc, hd, he, hf⟩ := h
      rw [toLower_eq_digit _ _ (by decide)] at hc hd he hf
      subst hc hd he hf
      exact ⟨a, b, rfl, (toLower_eq_l a).mp ha, (toLower_eq_t b).mp hb⟩
    | [], h => simp at h
    | [_], h => simp at h
    | [_, _], h => simp at h
    | [_, _, _], h => simp at h
    | [_, _, _, _], h => simp at h
    | [_, _, _, _, _], h => simp at h
    | _ :: _ :: _ :: _ :: _ :: _ :: _ :: _, h => simp at h
  · rintro ⟨a, b, hs, ha, hb⟩
    rw [hs]
    simp only [List.map_cons, List.map_nil, List.cons.injEq, and_true]
    refine ⟨(toLower_eq_l a).mpr ha, (toLower_eq_t b).mpr hb, ?_, ?_, ?_, ?_⟩ <;> decide

/-- An index is `-1` or more. -/
theorem indexOf_ge_neg_one (c : Char) (l : List Char) : -1 ≤ indexOf c l := by
  induction l with
  | nil => simp [indexOf]
  | cons x xs ih =>
    unfold indexOf
    split
    · omega
    · split <;> omega

/-- The index is `-1` exactly when the character does not occur. -/
theorem indexOf_eq_neg_one_iff (c : Char) (l : List Char) : indexOf c l = -1 ↔ c ∉ l := by
  induction l with
  | nil => simp [indexOf]
  | cons x xs ih =>
    have hge := indexOf_ge_neg_one c xs
    unfold indexOf
    by_cases hx : x = c
    · subst hx
      simp
    · have hne : ¬ c = x := fun e => hx e.symm
      simp only [hx, if_false, List.mem_cons, hne, false_or]
      rw [← ih]
      constructor
      · intro h
        by_contra hcon
        rw [if_neg hcon] at h
        omega
      · intro h
        rw [if_pos h]

/-- The index of a character that occurs splits the text at its first occurrence. -/
theorem indexOf_split (c : Char) (l : List Char) (h : c ∈ l) :
    ∃ host rest, l = host ++ c :: rest ∧ c ∉ host ∧ indexOf c l = (host.length : Int) := by
  induction l with
  | nil => simp at h
  | cons x xs ih =>
    by_cases hx : x = c
    · subst hx
      exact ⟨[], xs, rfl, by simp, by simp [indexOf]⟩
    · have hne : ¬ c = x := fun e => hx e.symm
      have hmem : c ∈ xs := by
        rcases List.mem_cons.mp h with e | e
        · exact absurd e hne
        · exact e
      obtain ⟨host, rest, hl, hnot, hidx⟩ := ih hmem
      refine ⟨x :: host, rest, by rw [hl]; rfl, ?_, ?_⟩
      · simp only [List.mem_cons, not_or]
        exact ⟨hne, hnot⟩
      · have hn1 : indexOf c xs ≠ -1 := by
          rw [hidx]; omega
        unfold indexOf
        rw [if_neg hx, if_neg hn1, hidx]
        simp

/-- Without a colon the host is the whole text. -/
theorem mqttServer_of_no_colon (s : Settings) (h : ':' ∉ s._mqttServer.data) :
    mqttServer s = s._mqttServer := by
  unfold mqttServer PORT_POSITION
  simp [(indexOf_eq_neg_one_iff ':' _).mpr h]

/-- Without a colon the port is the default, as a 16-bit value. -/
theorem mqttPort_of_no_colon (D : Nat) (s : Settings) (h : ':' ∉ s._mqttServer.data) :
    mqttPort D s = some (D % 2 ^ 16) := by
  unfold mqttPort PORT_POSITION
  simp [(indexOf_eq_neg_one_iff ':' _).mpr h]

/-- Host, port text and port of a text split at its first colon. -/
theorem mqtt_of_split (D : Nat) (s : Settings) (host rest : List Char)
    (hs : s._mqttServer.data = host ++ ':' :: rest) (hh : ':' ∉ host) :
    mqttServer s = String.mk host ∧ portText s = rest ∧
      mqttPort D s = (atoi rest).map (fun v => (v % (2 ^ 16 : Int)).toNat) := by
  have hmem : ':' ∈ s._mqttServer.data := by rw [hs]; simp
  obtain ⟨host2, rest2, hs2, hh2, hidx⟩ := indexOf_split ':' _ hmem
  have heq : host2 = host ∧ rest2 = rest := by
    rw [hs] at hs2
    have := List.append_eq_append_iff.mp hs2
    rcases this with ⟨a, h1, h2⟩ | ⟨a, h1, h2⟩
    · cases a with
      | nil => simp at h1 h2; exact ⟨h1, h2.symm⟩
      | cons y ys =>
        simp at h2
        exfalso; apply hh2; rw [h1, ← h2.1]; simp
    · cases a with
      | nil => simp at h1 h2; exact ⟨h1.symm, h2⟩
      | cons y ys =>
        simp at h2
        exfalso; apply hh; rw [h1, ← h2.1]; simp
  obtain ⟨e1, e2⟩ := heq
  subst e1 e2
  have hne : indexOf ':' s._mqttServer.data ≠ -1 := by rw [hidx]; omega
  have hpt : portText s = rest2 := by
    unfold portText cstrFrom PORT_POSITION
    rw [hidx, hs]
    have : ((host2.length : Int) + 1).toNat = host2.length + 1 := by omega
    rw [this]
    simp
  refine ⟨?_, hpt, ?_⟩
  · unfold mqttServer PORT_POSITION
    simp only [hne, if_false, hidx, Int.toNat_ofNat]
    unfold substring
    rw [hs]
    simp
  · unfold mqttPort PORT_POSITION
    simp only [hne, if_false, hpt]

/-- A digit character is a digit, no white space and no sign. -/
theorem digitChar_facts (d : Nat) (h : d < 10) :
    (digitChar d).isDigit = true ∧ (digitChar d).toNat - '0'.toNat = d ∧
      isSpace (digitChar d) = false ∧ digitChar d ≠ '-' ∧ digitChar d ≠ '+' := by
  interval_cases d <;> decide

/-- The digits read onto `acc` shift it and add the number they denote. -/
theorem digitsValue_digits (ds : List Nat) (hd : ∀ d ∈ ds, d < 10) (acc : Nat) :
    digitsValue (ds.map digitChar) acc = acc * 10 ^ ds.length + Nat.ofDigits 10 ds.reverse := by
  induction ds generalizing acc with
  | nil => simp [digitsValue]
  | cons d rest ih =>
    obtain ⟨h1, h2, _, _, _⟩ := digitChar_facts d (hd d (List.mem_cons_self _ _))
    simp only [List.map_cons, digitsValue, h1, if_true, h2]
    rw [ih (fun x hx => hd x (List.mem_cons_of_mem _ hx))]
    simp only [List.reverse_cons, Nat.ofDigits_append, Nat.ofDigits_singleton, List.length_reverse,
      List.length_cons]
    ring

/-- A text of digits reads as the number it denotes. -/
theorem atoiValue_digits (ds : List Nat) (hd : ∀ d ∈ ds, d < 10) :
    atoiValue (ds.map digitChar) = Int.ofNat (Nat.ofDigits 10 ds.reverse) := by
  have hv := digitsValue_digits ds hd 0
  cases ds with
  | nil => rfl
  | cons d rest =>
    obtain ⟨_, _, h3, h4, h5⟩ := digitChar_facts d (hd d (List.mem_cons_self _ _))
    have hsk : skipSpaces (List.map digitChar (d :: rest)) = List.map digitChar (d :: rest) := by
      simp [skipSpaces, h3]
    unfold atoiValue
    rw [hsk]
    simp only [List.map_cons] at hv ⊢
    split
    · rename_i heq
      simp only [List.cons.injEq] at heq
      exact absurd heq.1 h4
    · rename_i heq
      simp only [List.cons.injEq] at heq
      exact absurd heq.1 h5
    · rw [hv]; simp

/-- Within the range of `int` the number read is the result of `atoi`. -/
theorem atoi_digits (ds : List Nat) (hd : ∀ d ∈ ds, d < 10)
    (hn : Nat.ofDigits 10 ds.reverse ≤ 2 ^ 31 - 1) :
    atoi (ds.map digitChar) = some (Int.ofNat (Nat.ofDigits 10 ds.reverse)) := by
  unfold atoi
  rw [atoiValue_digits ds hd]
  generalize Nat.ofDigits 10 ds.reverse = n at hn
  have h1 : (-(2 ^ 31 : Int)) ≤ Int.ofNat n := by
    have : (0 : Int) ≤ Int.ofNat n := Int.ofNat_nonneg _
    omega
  have h2 : Int.ofNat n ≤ 2 ^ 31 - 1 := by
    have : n ≤ 2147483647 := hn
    simp only [Int.ofNat_eq_coe]
    omega
  rw [if_pos ⟨h1, h2⟩]

/-- Narrowing a natural number to 16 bits. -/
theorem narrow_ofNat (n : Nat) : ((Int.ofNat n % (2 ^ 16 : Int)).toNat) = n % 65536 := by
  simp only [Int.ofNat_eq_coe]
  omega

/-- A text has positive length exactly when it is not empty. -/
theorem string_length_pos_iff (s : String) : 0 < s.length ↔ s ≠ "" := by
  rw [String.length]
  constructor
  · intro h he
    subst he
    simp at h
  · intro h
    apply List.length_pos.mpr
    intro hd
    apply h
    exact String.ext hd

/-- Only the two canonical names are reproduced by the mapping to a type and back. -/
theorem typeToString_typeFromString_iff (s : String) :
    typeToString (typeFromString s) = s ↔ s = "LT8900" ∨ s = "nRF24" := by
  unfold typeFromString
  cases h : equalsIgnoreCase s "lt8900" with
  | true =>
    simp only [if_true, typeToString]
    constructor
    · intro e; exact Or.inl e.symm
    · rintro (e | e)
      · exact e.symm
      · subst e
        exact absurd h (by decide)
  | false =>
    simp only [Bool.false_eq_true, if_false, typeToString]
    constructor
    · intro e; exact Or.inr e.symm
    · rintro (e | e)
      · subst e
        exact absurd h (by decide)
      · exact e.symm

/-- The state after a patch that holds only `auto_restart_period = p`. -/
theorem patch_auto_restart_period (s : Settings) (p : Nat) (hp : p < 2 ^ 32) :
    patch s (singleton "auto_restart_period" (JsonVariant.integer (Int.ofNat p)))
      = { s with _autoRestartPeriod := p } := by
  rw [patch_eq s _ rfl]
  have e := asUInt_integer 32 p hp
  simp only [Int.ofNat_eq_coe] at e
  simp [setIfPresent, singleton, JsonObject.containsKey, JsonObject.get, List.lookup, e]

/-- The member `auto_restart_period` of the serialized document is the stored value. -/
theorem serialize_auto_restart_period (s : Settings) (hc : s.CountsMatch) (hp : s.Populated) :
    ∃ root, serialize s = some root ∧
      root.get "auto_restart_period" = JsonVariant.integer (Int.ofNat s._autoRestartPeriod) := by
  refine ⟨_, serialize_eq s hc hp, ?_⟩
  simp [JsonObject.get, scalarMembers, List.lookup]

/-- The two kinds of array are released before their replacement: when the
heap holds exactly the arrays the state refers to, it does so again after
`patch`. -/
theorem patchHeap_arrays_balanced (h : Heap) (s : Settings) (doc : JsonObject)
    (hd : h.deviceIdArrays = s.owned.deviceIdArrays)
    (hg : h.gatewayArrays = s.owned.gatewayArrays) :
    (patchHeap h s doc).deviceIdArrays = (patch s doc).owned.deviceIdArrays ∧
    (patchHeap h s doc).gatewayArrays = (patch s doc).owned.gatewayArrays := by
  cases hs : doc.success with
  | false =>
    rw [patch_of_not_success s doc hs]
    simp [patchHeap, hs, hd, hg]
  | true =>
    rw [patch_eq s doc hs]
    unfold patchHeap updateDeviceIdsHeap updateGatewayConfigsHeap
    simp only [Settings.owned] at hd hg ⊢
    simp only [hs, if_true]
    cases doc.containsKey "device_ids" <;> cases doc.containsKey "gateway_configs" <;>
    cases (doc.get "device_ids").asArray.success <;>
    cases (doc.get "gateway_configs").asArray.success <;>
    cases hdi : s.deviceIds <;> cases hgc : s.gatewayConfigs <;>
    simp [hdi, hgc] at hd hg ⊢ <;> simp [hd, hg]

/-- Serialization on the states that `serialize` can read. For every
state whose counts equal the lengths of its arrays and in which every
`gatewayConfigs` cell is assigned, `serialize` builds a valid document whose
members are the thirteen scalar keys in the listed order with the stored
values, followed by `device_ids` exactly when `deviceIds` is non-null
(holding the stored ids) and by `gateway_configs` exactly when
`gatewayConfigs` is non-null, element `i` being the triple
`[deviceId, port, protocolVersion]` of cell `i`. -/
theorem serialize_document (s : Settings) (hc : s.CountsMatch) (hp : s.Populated) :
    ∃ root, serialize s = some root ∧ root.success = true ∧
      root.members =
        [("admin_username", JsonVariant.string s.adminUsername),
         ("admin_password", JsonVariant.string s.adminPassword),
         ("ce_pin", JsonVariant.integer (Int.ofNat s.cePin)),
         ("csn_pin", JsonVariant.integer (Int.ofNat s.csnPin)),
         ("reset_pin", JsonVariant.integer (Int.ofNat s.resetPin)),
         ("radio_interface_type", JsonVariant.string (typeToString s.radioInterfaceType)),
         ("packet_repeats", JsonVariant.integer (Int.ofNat s.packetRepeats)),
         ("http_repeat_factor", JsonVariant.integer (Int.ofNat s.httpRepeatFactor)),
         ("auto_restart_period", JsonVariant.integer (Int.ofNat s._autoRestartPeriod)),
         ("mqtt_server", JsonVariant.string s._mqttServer),
         ("mqtt_username", JsonVariant.string s.mqttUsername),
         ("mqtt_password", JsonVariant.string s.mqttPassword),
         ("mqtt_topic_pattern", JsonVariant.string s.mqttTopicPattern)]
          ++ deviceIdsMember s ++ gatewayConfigsMember s ∧
      (root.containsKey "device_ids" = true ↔ s.deviceIds ≠ none) ∧
      (root.containsKey "gateway_configs" = true ↔ s.gatewayConfigs ≠ none) ∧
      (∀ ids, s.deviceIds = some ids →
        root.get "device_ids" = JsonVariant.array (intValues ids)) ∧
      (∀ cells, s.gatewayConfigs = some cells →
        ∃ elems, root.get "gateway_configs" = JsonVariant.array elems ∧
          elems.length = cells.length ∧
          ∀ (i : Nat) (g : GatewayConfig), cells[i]? = some (some g) →
            elems[i]? = some (JsonVariant.array
              [JsonVariant.integer (Int.ofNat g.deviceId), g.port, g.protocolVersion])) := by
  refine ⟨_, serialize_eq s hc hp, rfl, rfl, ?_, ?_, ?_, ?_⟩
  · cases hdi : s.deviceIds <;> cases hgc : s.gatewayConfigs <;>
      simp [JsonObject.containsKey, scalarMembers, deviceIdsMember, gatewayConfigsMember,
        List.lookup, hdi, hgc]
  · cases hdi : s.deviceIds <;> cases hgc : s.gatewayConfigs <;>
      simp [JsonObject.containsKey, scalarMembers, deviceIdsMember, gatewayConfigsMember,
        List.lookup, hdi, hgc]
  · intro ids hdi
    cases hgc : s.gatewayConfigs <;>
      simp [JsonObject.get, scalarMembers, deviceIdsMember, gatewayConfigsMember,
        List.lookup, hdi, hgc]
  · intro cells hgc
    have hp2 : ∀ c ∈ cells, c.isSome = true := by
      unfold Settings.Populated at hp
      rw [hgc] at hp
      exact hp
    refine ⟨gatewayValues cells, ?_, length_gatewayValues cells hp2, ?_⟩
    · cases hdi : s.deviceIds <;>
        simp [JsonObject.get, scalarMembers, deviceIdsMember, gatewayConfigsMember,
          List.lookup, hdi, hgc]
    · intro i g hi
      exact getElem?_gatewayValues cells hp2 i g hi

/-- The document of the populated sample state holds its scalar and device-id members. -/
theorem serialize_document_witness :
    populatedSettings.CountsMatch ∧ populatedSettings.Populated ∧
    ∃ root, serialize populatedSettings = some root ∧
      root.containsKey "admin_username" = true ∧ root.containsKey "device_ids" = true :=
  have hw := serialize_document populatedSettings ⟨rfl, rfl⟩ populatedSettings_populated
  ⟨⟨rfl, rfl⟩, populatedSettings_populated,
    hw.elim (fun root hr => ⟨root, hr.1, by rw [JsonObject.containsKey, hr.2.2.1]; rfl,
      hr.2.2.2.1.mpr (by decide)⟩)⟩

/-! ## Claims -/

/-- C1 (partial merge). For every state and every successfully parsed
document, a field whose key is absent from the document keeps its prior
value after `patch` (thirteen scalar keys, `device_ids` for `deviceIds` and
`numDeviceIds`, `gateway_configs` for `gatewayConfigs` and
`numGatewayConfigs`); and patching with the document that holds only
`packet_repeats = 5` gives the prior state with `packetRepeats` set to 5. -/
theorem patch_partial_merge (s : Settings) (doc : JsonObject) (h : doc.success = true) :
    (doc.containsKey "admin_username" = false → (patch s doc).adminUsername = s.adminUsername) ∧
    (doc.containsKey "admin_password" = false → (patch s doc).adminPassword = s.adminPassword) ∧
    (doc.containsKey "ce_pin" = false → (patch s doc).cePin = s.cePin) ∧
    (doc.containsKey "csn_pin" = false → (patch s doc).csnPin = s.csnPin) ∧
    (doc.containsKey "reset_pin" = false → (patch s doc).resetPin = s.resetPin) ∧
    (doc.containsKey "radio_interface_type" = false →
      (patch s doc).radioInterfaceType = s.radioInterfaceType) ∧
    (doc.containsKey "packet_repeats" = false → (patch s doc).packetRepeats = s.packetRepeats) ∧
    (doc.containsKey "http_repeat_factor" = false →
      (patch s doc).httpRepeatFactor = s.httpRepeatFactor) ∧
    (doc.containsKey "auto_restart_period" = false →
      (patch s doc)._autoRestartPeriod = s._autoRestartPeriod) ∧
    (doc.containsKey "mqtt_server" = false → (patch s doc)._mqttServer = s._mqttServer) ∧
    (doc.containsKey "mqtt_username" = false → (patch s doc).mqttUsername = s.mqttUsername) ∧
    (doc.containsKey "mqtt_password" = false → (patch s doc).mqttPassword = s.mqttPassword) ∧
    (doc.containsKey "mqtt_topic_pattern" = false →
      (patch s doc).mqttTopicPattern = s.mqttTopicPattern) ∧
    (doc.containsKey "device_ids" = false →
      (patch s doc).deviceIds = s.deviceIds ∧ (patch s doc).numDeviceIds = s.numDeviceIds) ∧
    (doc.containsKey "gateway_configs" = false →
      (patch s doc).gatewayConfigs = s.gatewayConfigs ∧
        (patch s doc).numGatewayConfigs = s.numGatewayConfigs) ∧
    patch s (singleton "packet_repeats" (JsonVariant.integer 5)) = { s with packetRepeats := 5 } := by
  rw [patch_eq s doc h]
  refine ⟨?_, ?_, ?_, ?_, ?_, ?_, ?_, ?_, ?_, ?_, ?_, ?_, ?_, ?_, ?_, ?_⟩
  case refine_14 => intro hk; simp [hk]
  case refine_15 => intro hk; simp [hk]
  case refine_16 =>
    rw [patch_eq s _ rfl]
    simp [setIfPresent, singleton, JsonObject.containsKey, JsonObject.get, List.lookup,
      JsonVariant.asUInt]
  all_goals
    intro hk
    simp [setIfPresent_absent, hk]

/-- Witness for C1: the sample state patched with `packet_repeats = 5`. -/
theorem patch_partial_merge_witness :
    (singleton "packet_repeats" (JsonVariant.integer 5)).success = true ∧
    (singleton "packet_repeats" (JsonVariant.integer 5)).containsKey "ce_pin" = false ∧
    (patch sampleSettings (singleton "packet_repeats" (JsonVariant.integer 5))).cePin = 16 ∧
    (patch sampleSettings (singleton "packet_repeats" (JsonVariant.integer 5))).packetRepeats
      = 5 :=
  have hw := patch_partial_merge sampleSettings
    (singleton "packet_repeats" (JsonVariant.integer 5)) rfl
  ⟨rfl, by decide, hw.2.2.1 (by decide), by rw [hw.2.2.2.2.2.2.2.2.2.2.2.2.2.2.2]⟩

/-- C2 (malformed document). For every state, `patch` with a document whose
`success()` is false returns the state unchanged, whatever members the
document holds. -/
theorem patch_failed_document_noop (s : Settings) (doc : JsonObject)
    (h : doc.success = false) : patch s doc = s :=
  patch_of_not_success s doc h

/-- Witness for C2: a failed document that still carries a member. -/
theorem patch_failed_document_noop_witness :
    (JsonObject.mk false [("packet_repeats", JsonVariant.integer 5)]).success = false ∧
    patch sampleSettings (JsonObject.mk false [("packet_repeats", JsonVariant.integer 5)])
      = sampleSettings :=
  ⟨rfl, patch_failed_document_noop sampleSettings _ rfl⟩

/-- C3 (array replace-not-merge). For every prior state and every
successfully parsed document whose `device_ids` value is an array `A`, after
`patch` the array `deviceIds` holds the elements of `A` in order, each read
as an unsigned 16-bit integer, and `numDeviceIds` is the length of `A`,
whatever the previous contents; when `A` is a list of integers below 65536
these are exactly the numbers stored.  Patching `device_ids` with `[1,2,3]`
and then with `[9]` leaves exactly the one element 9. -/
theorem patch_device_ids_replaces (s : Settings) (doc : JsonObject) (A : List JsonVariant)
    (h : doc.success = true) (hA : doc.get "device_ids" = JsonVariant.array A) :
    (patch s doc).deviceIds = some (A.map (JsonVariant.asUInt 16)) ∧
    (patch s doc).numDeviceIds = A.length ∧
    (∀ ids : List Nat, (∀ n ∈ ids, n < 65536) → A = intValues ids →
      (patch s doc).deviceIds = some ids) ∧
    (patch (patch s (singleton "device_ids" (intArray [1, 2, 3])))
        (singleton "device_ids" (intArray [9]))).deviceIds = some [9] ∧
    (patch (patch s (singleton "device_ids" (intArray [1, 2, 3])))
        (singleton "device_ids" (intArray [9]))).numDeviceIds = 1 := by
  have hp := patch_deviceIds_of_array s doc A h hA
  refine ⟨hp.1, hp.2, ?_, ?_, ?_⟩
  · intro ids hids hmap
    rw [hp.1, hmap, map_asUInt_intArray 16 ids hids]
  · exact (patch_deviceIds_of_array _ (singleton "device_ids" (intArray [9]))
      [JsonVariant.integer 9] rfl rfl).1
  · exact (patch_deviceIds_of_array _ (singleton "device_ids" (intArray [9]))
      [JsonVariant.integer 9] rfl rfl).2

/-- Witness for C3: the sample state patched with `device_ids = [1,2,3]`. -/
theorem patch_device_ids_replaces_witness :
    (singleton "device_ids" (intArray [1, 2, 3])).success = true ∧
    (singleton "device_ids" (intArray [1, 2, 3])).get "device_ids"
      = JsonVariant.array [JsonVariant.integer 1, JsonVariant.integer 2, JsonVariant.integer 3] ∧
    (patch sampleSettings (singleton "device_ids" (intArray [1, 2, 3]))).deviceIds
      = some [1, 2, 3] ∧
    (patch sampleSettings (singleton "device_ids" (intArray [1, 2, 3]))).numDeviceIds = 3 :=
  have hw := patch_device_ids_replaces sampleSettings
    (singleton "device_ids" (intArray [1, 2, 3]))
    [JsonVariant.integer 1, JsonVariant.integer 2, JsonVariant.integer 3] rfl rfl
  ⟨rfl, rfl, hw.2.2.1 [1, 2, 3] (by decide) rfl, hw.2.1⟩

/-- C4 (round trip). For every state `S` whose counts equal the lengths of
its arrays, whose stored integers fit their machine types and in which every
`gatewayConfigs` cell is assigned, `serialize` builds a document, and `patch`
applied to a fresh instance `d` with that document gives a state equal to
`S` in every field (scalars, `radioInterfaceType`, `deviceIds` with
`numDeviceIds`, `gatewayConfigs` with `numGatewayConfigs`).  The printed text
and its parse are the codec's own; the document stands for both. -/
theorem serialize_patch_round_trip (S d : Settings) (hd : d.Fresh) (hc : S.CountsMatch)
    (hp : S.Populated) (ht : S.WellTyped) :
    ∃ root, serialize S = some root ∧ patch d root = S := by
  refine ⟨_, serialize_eq S hc hp, ?_⟩
  rw [patch_eq d _ rfl]
  obtain ⟨h1, h2, h3, h4, h5, h6, h7, h8⟩ := ht
  obtain ⟨hc1, hc2⟩ := hc
  obtain ⟨hd1, hd2, hd3, hd4⟩ := hd
  unfold Settings.Populated at hp
  unfold Settings.deviceIdsLength at hc1
  unfold Settings.gatewayConfigsLength at hc2
  obtain ⟨a1, a2, a3, a4, a5, a6, a7, a8, a9, a10, a11, a12, a13, di, nd, gc, ng⟩ := S
  simp only at h1 h2 h3 h4 h5 h6 h7 h8 hc1 hc2 hp
  have e3 : JsonVariant.asUInt 8 (JsonVariant.integer (a3 : Int)) = a3 :=
    asUInt_integer 8 a3 h1
  have e4 : JsonVariant.asUInt 8 (JsonVariant.integer (a4 : Int)) = a4 :=
    asUInt_integer 8 a4 h2
  have e5 : JsonVariant.asUInt 8 (JsonVariant.integer (a5 : Int)) = a5 :=
    asUInt_integer 8 a5 h3
  have e7 : JsonVariant.asUInt 32 (JsonVariant.integer (a7 : Int)) = a7 :=
    asUInt_integer 32 a7 h4
  have e8 : JsonVariant.asUInt 32 (JsonVariant.integer (a8 : Int)) = a8 :=
    asUInt_integer 32 a8 h5
  have e9 : JsonVariant.asUInt 32 (JsonVariant.integer (a9 : Int)) = a9 :=
    asUInt_integer 32 a9 h6
  cases di with
  | none =>
    cases gc with
    | none =>
      simp only at hc1 hc2
      subst hc1 hc2
      simp [setIfPresent, scalarMembers, deviceIdsMember, gatewayConfigsMember,
        JsonObject.containsKey, JsonObject.get, List.lookup, JsonVariant.asString,
        typeFromString_typeToString, hd1, hd2, hd3, hd4, e3, e4, e5, e7, e8, e9]
    | some cells =>
      simp only at hc1 hc2
      subst hc1 hc2
      simp [setIfPresent, scalarMembers, deviceIdsMember, gatewayConfigsMember,
        JsonObject.containsKey, JsonObject.get, List.lookup, JsonVariant.asString,
        JsonVariant.asArray, JsonArray.size, length_gatewayValues cells hp,
        map_slot_gatewayValues cells hp (fun g hg => (h8 cells rfl g hg).1),
        typeFromString_typeToString, hd1, hd2, hd3, hd4, e3, e4, e5, e7, e8, e9]
  | some ids =>
    cases gc with
    | none =>
      simp only at hc1 hc2
      subst hc1 hc2
      simp [setIfPresent, scalarMembers, deviceIdsMember, gatewayConfigsMember,
        JsonObject.containsKey, JsonObject.get, List.lookup, JsonVariant.asString,
        JsonVariant.asArray, JsonArray.size, JsonArray.copyTo, length_intValues,
        map_asUInt_intArray 16 ids (h7 ids rfl),
        typeFromString_typeToString, hd1, hd2, hd3, hd4, e3, e4, e5, e7, e8, e9]
    | some cells =>
      simp only at hc1 hc2
      subst hc1 hc2
      simp [setIfPresent, scalarMembers, deviceIdsMember, gatewayConfigsMember,
        JsonObject.containsKey, JsonObject.get, List.lookup, JsonVariant.asString,
        JsonVariant.asArray, JsonArray.size, JsonArray.copyTo, length_intValues,
        map_asUInt_intArray 16 ids (h7 ids rfl), length_gatewayValues cells hp,
        map_slot_gatewayValues cells hp (fun g hg => (h8 cells rfl g hg).1),
        typeFromString_typeToString, hd1, hd2, hd3, hd4, e3, e4, e5, e7, e8, e9]

/-- Witness for C4: a state with two device ids and two gateways, restored
onto the sample fresh instance. -/
theorem serialize_patch_round_trip_witness :
    sampleSettings.Fresh ∧ populatedSettings.CountsMatch ∧ populatedSettings.Populated ∧
    populatedSettings.WellTyped ∧
    ∃ root, serialize populatedSettings = some root ∧
      patch sampleSettings root = populatedSettings :=
  ⟨⟨rfl, rfl, rfl, rfl⟩, ⟨rfl, rfl⟩, populatedSettings_populated, populatedSettings_wellTyped,
    serialize_patch_round_trip populatedSettings sampleSettings ⟨rfl, rfl, rfl, rfl⟩ ⟨rfl, rfl⟩
      populatedSettings_populated populatedSettings_wellTyped⟩

/-- C5 (malformed element skip). For every successfully parsed document whose
`gateway_configs` value is an array `A`, after `patch` the count
`numGatewayConfigs` is the length of `A`, the new pointer array has that many
cells, and for every index `i` below it: when element `i` is an array of
exactly three values `[a, b, c]` the cell holds the record with
`deviceId = parseInt a`, `port = b`, `protocolVersion = c`; otherwise the
cell is left unassigned.  The document `[[1,"80","v1"], ["bad"], [3,"81","v2"]]`
gives three cells, cell 1 unassigned and cells 0 and 2 assigned. -/
theorem patch_gateway_configs_slots (s : Settings) (doc : JsonObject) (A : List JsonVariant)
    (h : doc.success = true) (hA : doc.get "gateway_configs" = JsonVariant.array A) :
    (patch s doc).numGatewayConfigs = A.length ∧
    (∃ cells, (patch s doc).gatewayConfigs = some cells ∧ cells.length = A.length ∧
      ∀ i, i < A.length →
        (∀ a b c, A[i]? = some (JsonVariant.array [a, b, c]) →
          cells[i]? = some (some ⟨parseInt a, b, c⟩)) ∧
        ((¬ ∃ a b c, A[i]? = some (JsonVariant.array [a, b, c])) → cells[i]? = some none)) ∧
    (patch s gapExample).numGatewayConfigs = 3 ∧
    (patch s gapExample).gatewayConfigs =
      some [some ⟨1, JsonVariant.string "80", JsonVariant.string "v1"⟩, none,
        some ⟨3, JsonVariant.string "81", JsonVariant.string "v2"⟩] := by
  have hp := patch_gatewayConfigs_of_array s doc A h hA
  refine ⟨hp.2, ⟨A.map gatewayConfigSlot, hp.1, List.length_map _ _, ?_⟩, ?_, ?_⟩
  · intro i hi
    have hget : A[i]? = some A[i] := List.getElem?_eq_getElem hi
    constructor
    · intro a b c habc
      rw [List.getElem?_map, habc]
      rfl
    · intro hno
      rw [List.getElem?_map, hget]
      have : gatewayConfigSlot A[i] = none := by
        apply gatewayConfigSlot_malformed
        rintro ⟨a, b, c, habc⟩
        exact hno ⟨a, b, c, by rw [hget, habc]⟩
      simp [this]
  · exact (patch_gatewayConfigs_of_array s gapExample _ rfl rfl).2
  · exact (patch_gatewayConfigs_of_array s gapExample _ rfl rfl).1

/-- Witness for C5: the sample state patched with the example document. -/
theorem patch_gateway_configs_slots_witness :
    gapExample.success = true ∧
    (patch sampleSettings gapExample).numGatewayConfigs = 3 ∧
    (patch sampleSettings gapExample).gatewayConfigs =
      some [some ⟨1, JsonVariant.string "80", JsonVariant.string "v1"⟩, none,
        some ⟨3, JsonVariant.string "81", JsonVariant.string "v2"⟩] :=
  have hw := patch_gateway_configs_slots sampleSettings gapExample _ rfl rfl
  ⟨rfl, hw.2.2.1, hw.2.2.2⟩

/-- C6 (malformed `device_ids` is absent-equivalent). For every state and
every successfully parsed document in which the key `device_ids` is present
with a value that is not an array, `patch` gives the same state as `patch`
with the document from which the key `device_ids` is removed, and
`deviceIds` and `numDeviceIds` keep their prior values. -/
theorem patch_malformed_device_ids (s : Settings) (doc : JsonObject)
    (h : doc.success = true) (hk : doc.containsKey "device_ids" = true)
    (hbad : ∀ A, doc.get "device_ids" ≠ JsonVariant.array A) :
    patch s doc = patch s (doc.remove "device_ids") ∧
    (patch s doc).deviceIds = s.deviceIds ∧
    (patch s doc).numDeviceIds = s.numDeviceIds := by
  have hs : (doc.get "device_ids").asArray.success = false := asArray_success_false _ hbad
  have hr : (doc.remove "device_ids").success = true := h
  rw [patch_eq s doc h, patch_eq s _ hr]
  simp [setIfPresent, containsKey_remove_ne, get_remove_ne, containsKey_remove_self, hk, hs]

/-- Witness for C6: `device_ids` given as the text `"all"`. -/
theorem patch_malformed_device_ids_witness :
    (singleton "device_ids" (JsonVariant.string "all")).success = true ∧
    (singleton "device_ids" (JsonVariant.string "all")).containsKey "device_ids" = true ∧
    patch sampleSettings (singleton "device_ids" (JsonVariant.string "all"))
      = patch sampleSettings ((singleton "device_ids" (JsonVariant.string "all")).remove
          "device_ids") ∧
    (patch sampleSettings (singleton "device_ids" (JsonVariant.string "all"))).deviceIds
      = none :=
  have hw := patch_malformed_device_ids sampleSettings
    (singleton "device_ids" (JsonVariant.string "all")) rfl (by decide)
    (fun A hA => by cases hA)
  ⟨rfl, by decide, hw.1, hw.2.1⟩

/-- C7 (a configuration fault never crashes the device), evaluated at the
failing input: the state reached from a fresh instance by one `patch` with
`gateway_configs = [[1,"80","v1"], ["bad"], [3,"81","v2"]]` has an unassigned
cell 1, and `serialize` (hence `toJson`) dereferences it: no document is
built. -/
theorem serialize_faults_after_malformed_gateway :
    sampleSettings.Fresh ∧
    Reachable sampleSettings (patch sampleSettings gapExample) ∧
    serialize (patch sampleSettings gapExample) = none ∧
    toJson (patch sampleSettings gapExample) = none :=
  ⟨⟨rfl, rfl, rfl, rfl⟩, Reachable.step gapExample Reachable.init, rfl, rfl⟩

/-- C8 as stated fails: the state reached from a fresh instance by one `patch`
with `device_ids = []` has `numDeviceIds = 0` and a non-null `deviceIds`, so
"null if and only if zero" does not hold in every reachable state. -/
theorem device_ids_null_iff_zero_fails :
    ¬ (∀ d s : Settings, d.Fresh → Reachable d s →
        (s.numDeviceIds = s.deviceIdsLength ∧ (s.deviceIds = none ↔ s.numDeviceIds = 0))) := by
  intro hall
  have hs := hall sampleSettings (patch sampleSettings emptyDeviceIds) ⟨rfl, rfl, rfl, rfl⟩
    (Reachable.step emptyDeviceIds Reachable.init)
  have hnull : (patch sampleSettings emptyDeviceIds).deviceIds = none := hs.2.mpr rfl
  exact absurd hnull (by decide)

/-- C8 (device-id array invariant), amended. In every state reachable from a
fresh instance by any sequence of `patch` calls, `numDeviceIds` equals the
number of cells of `deviceIds` (zero for a null pointer), and a null
`deviceIds` implies `numDeviceIds = 0`. -/
theorem device_ids_invariant (d s : Settings) (hd : d.Fresh) (hr : Reachable d s) :
    s.numDeviceIds = s.deviceIdsLength ∧ (s.deviceIds = none → s.numDeviceIds = 0) := by
  have h := reachable_numDeviceIds d s hd hr
  refine ⟨h, fun hn => ?_⟩
  rw [h]
  simp [Settings.deviceIdsLength, hn]

/-- Witness for C8 amended: the sample state patched with `device_ids = [1,2,3]`. -/
theorem device_ids_invariant_witness :
    sampleSettings.Fresh ∧
    Reachable sampleSettings (patch sampleSettings (singleton "device_ids" (intArray [1, 2, 3]))) ∧
    (patch sampleSettings (singleton "device_ids" (intArray [1, 2, 3]))).numDeviceIds
      = (patch sampleSettings (singleton "device_ids" (intArray [1, 2, 3]))).deviceIdsLength :=
  ⟨⟨rfl, rfl, rfl, rfl⟩, Reachable.step _ Reachable.init,
    (device_ids_invariant sampleSettings _ ⟨rfl, rfl, rfl, rfl⟩
      (Reachable.step _ Reachable.init)).1⟩

/-- C9 (serialization completeness and omission rule), evaluated at the
failing input: the state reached from a fresh instance by one `patch` with
`gateway_configs = [["bad"]]` has a non-null `gatewayConfigs` of one cell,
never assigned, with `numGatewayConfigs = 1`.  The loop of `serialize`
dereferences that cell, so no document is built: neither the thirteen scalar
members nor a `gateway_configs` member of triples. -/
theorem serialize_no_document_for_gap :
    sampleSettings.Fresh ∧
    patch sampleSettings badGateway = gapSettings ∧
    gapSettings.gatewayConfigs = some [none] ∧
    gapSettings.numGatewayConfigs = 1 ∧
    ¬ ∃ root, serialize gapSettings = some root := by
  refine ⟨⟨rfl, rfl, rfl, rfl⟩, rfl, rfl, rfl, ?_⟩
  rintro ⟨root, hroot⟩
  have hnone : serialize gapSettings = none := rfl
  rw [hnone] at hroot
  cases hroot

/-- C10 (idempotence of `patch`). For every state `s` and every successfully
parsed document `doc`, patching twice with `doc` gives the same state as
patching once. -/
theorem patch_idempotent (s : Settings) (doc : JsonObject) (h : doc.success = true) :
    patch (patch s doc) doc = patch s doc := by
  rw [patch_eq (patch s doc) doc h, patch_eq s doc h]
  simp only [setIfPresent_idem]
  cases (doc.containsKey "device_ids" && (doc.get "device_ids").asArray.success) <;>
  cases (doc.containsKey "gateway_configs" && (doc.get "gateway_configs").asArray.success) <;>
  rfl

/-- Witness for C10: the example document with a malformed gateway element. -/
theorem patch_idempotent_witness :
    gapExample.success = true ∧
    patch (patch sampleSettings gapExample) gapExample = patch sampleSettings gapExample :=
  ⟨rfl, patch_idempotent sampleSettings gapExample rfl⟩

/-- C11 (unrecognized keys are ignored). For every state and every two
successfully parsed documents that agree on the fifteen recognized keys
(same presence, same value), whatever other members they hold, `patch` gives
the same state. -/
theorem patch_ignores_unrecognized (s : Settings) (D1 D2 : JsonObject)
    (h1 : D1.success = true) (h2 : D2.success = true)
    (hag : ∀ k ∈ recognizedKeys, D1.containsKey k = D2.containsKey k ∧ D1.get k = D2.get k) :
    patch s D1 = patch s D2 := by
  rw [patch_eq s D1 h1, patch_eq s D2 h2]
  have hk : ∀ k ∈ recognizedKeys, D1.containsKey k = D2.containsKey k := fun k hk => (hag k hk).1
  have hg : ∀ k ∈ recognizedKeys, D1.get k = D2.get k := fun k hk => (hag k hk).2
  simp only [setIfPresent,
    hk "admin_username" (by decide), hg "admin_username" (by decide),
    hk "admin_password" (by decide), hg "admin_password" (by decide),
    hk "ce_pin" (by decide), hg "ce_pin" (by decide),
    hk "csn_pin" (by decide), hg "csn_pin" (by decide),
    hk "reset_pin" (by decide), hg "reset_pin" (by decide),
    hk "packet_repeats" (by decide), hg "packet_repeats" (by decide),
    hk "http_repeat_factor" (by decide), hg "http_repeat_factor" (by decide),
    hk "auto_restart_period" (by decide), hg "auto_restart_period" (by decide),
    hk "mqtt_server" (by decide), hg "mqtt_server" (by decide),
    hk "mqtt_username" (by decide), hg "mqtt_username" (by decide),
    hk "mqtt_password" (by decide), hg "mqtt_password" (by decide),
    hk "mqtt_topic_pattern" (by decide), hg "mqtt_topic_pattern" (by decide),
    hk "radio_interface_type" (by decide), hg "radio_interface_type" (by decide),
    hk "device_ids" (by decide), hg "device_ids" (by decide),
    hk "gateway_configs" (by decide), hg "gateway_configs" (by decide)]

/-- Witness for C11: a document with the extra member `hostname` against the
same document without it. -/
theorem patch_ignores_unrecognized_witness :
    extraKeyDoc.success = true ∧
    (singleton "packet_repeats" (JsonVariant.integer 5)).success = true ∧
    extraKeyDoc.containsKey "hostname" = true ∧
    (singleton "packet_repeats" (JsonVariant.integer 5)).containsKey "hostname" = false ∧
    patch sampleSettings extraKeyDoc
      = patch sampleSettings (singleton "packet_repeats" (JsonVariant.integer 5)) :=
  ⟨rfl, rfl, by decide, by decide,
    patch_ignores_unrecognized sampleSettings extraKeyDoc _ rfl rfl extraKeyDoc_agrees⟩

/-- C12 as stated fails: for the stored text `broker.local:65536` the text
after the colon parses (atoi) to 65536, and `mqttPort` returns 0. -/
theorem mqttPort_not_parsed_integer :
    portText (withMqttServer "broker.local:65536") = "65536".data ∧
    atoi "65536".data = some 65536 ∧
    mqttPort 1883 (withMqttServer "broker.local:65536") = some 0 := by
  decide

/-- C12 (MQTT split), amended. With a default port that fits 16 bits: when
the stored text has no `:`, `mqttServer` is the whole text and `mqttPort` is
`DEFAULT_MQTT_PORT`; when it has one, the text is `host ++ ":" ++ rest` with
`host` free of `:`, `mqttServer` is `host`, and `mqttPort` is the integer
that `atoi` reads from `rest` reduced modulo 65536 (so that integer itself
when it lies in `0 .. 65535`).  `broker.local:1883` gives `broker.local` and
1883, `broker.local` gives itself and the default, and the non-numeric port
text of `broker.local:mqtt` gives 0. -/
theorem mqtt_split (D : Nat) (s : Settings) (hD : D < 2 ^ 16) :
    (':' ∉ s._mqttServer.data → mqttServer s = s._mqttServer ∧ mqttPort D s = some D) ∧
    (':' ∈ s._mqttServer.data →
      ∃ host rest, s._mqttServer.data = host ++ ':' :: rest ∧ ':' ∉ host ∧
        mqttServer s = String.mk host ∧
        mqttPort D s = (atoi rest).map (fun v => (v % (2 ^ 16 : Int)).toNat) ∧
        (∀ v : Nat, v < 65536 → atoi rest = some (Int.ofNat v) → mqttPort D s = some v)) ∧
    mqttServer (withMqttServer "broker.local:1883") = "broker.local" ∧
    mqttPort D (withMqttServer "broker.local:1883") = some 1883 ∧
    mqttServer (withMqttServer "broker.local") = "broker.local" ∧
    mqttPort D (withMqttServer "broker.local") = some D ∧
    mqttPort D (withMqttServer "broker.local:mqtt") = some 0 := by
  refine ⟨?_, ?_, by decide, ?_, by decide, ?_, ?_⟩
  · intro h
    refine ⟨mqttServer_of_no_colon s h, ?_⟩
    rw [mqttPort_of_no_colon D s h, Nat.mod_eq_of_lt hD]
  · intro h
    obtain ⟨host, rest, hs, hh, _⟩ := indexOf_split ':' _ h
    obtain ⟨h1, _, h3⟩ := mqtt_of_split D s host rest hs hh
    refine ⟨host, rest, hs, hh, h1, h3, ?_⟩
    intro v hv hav
    rw [h3, hav, Option.map_some', narrow_ofNat, Nat.mod_eq_of_lt hv]
  · exact (mqtt_of_split D (withMqttServer "broker.local:1883") "broker.local".data "1883".data
      rfl (by decide)).2.2.trans (by decide)
  · rw [mqttPort_of_no_colon D _ (by decide), Nat.mod_eq_of_lt hD]
  · exact (mqtt_of_split D (withMqttServer "broker.local:mqtt") "broker.local".data "mqtt".data
      rfl (by decide)).2.2.trans (by decide)

/-- Witness for C12 amended: default port 1883 and the stored text
`broker.local:1883`. -/
theorem mqtt_split_witness :
    1883 < 2 ^ 16 ∧ ':' ∈ (withMqttServer "broker.local:1883")._mqttServer.data ∧
    ∃ host rest, (withMqttServer "broker.local:1883")._mqttServer.data = host ++ ':' :: rest ∧
      mqttServer (withMqttServer "broker.local:1883") = String.mk host :=
  have hw := mqtt_split 1883 (withMqttServer "broker.local:1883") (by decide)
  ⟨by decide, by decide,
    (hw.2.1 (by decide)).elim (fun host hr => hr.elim (fun rest hq => ⟨host, rest, hq.1, hq.2.2.1⟩))⟩

/-- C13 (auto-restart clamp on read only). With a minimum that is a `size_t`
value of at least 1: for every state, `getAutoRestartPeriod` is 0 when the
stored period is 0 and the maximum of the stored period and
`MINIMUM_RESTART_PERIOD` otherwise.  In a state that `serialize` can read,
after patching `auto_restart_period = 1` the accessor returns the minimum
while the stored value and the serialized member are 1, and after patching
`auto_restart_period = 0` the accessor, the stored value and the serialized
member are 0. -/
theorem getAutoRestartPeriod_clamps (M : Nat) (s : Settings) (hM : M < 2 ^ 32) (hM1 : 1 ≤ M)
    (hc : s.CountsMatch) (hp : s.Populated) :
    (s._autoRestartPeriod = 0 → getAutoRestartPeriod M s = 0) ∧
    (s._autoRestartPeriod ≠ 0 → getAutoRestartPeriod M s = max s._autoRestartPeriod M) ∧
    (getAutoRestartPeriod M
        (patch s (singleton "auto_restart_period" (JsonVariant.integer 1))) = M ∧
      (patch s (singleton "auto_restart_period" (JsonVariant.integer 1)))._autoRestartPeriod = 1 ∧
      ∃ root, serialize (patch s (singleton "auto_restart_period" (JsonVariant.integer 1)))
          = some root ∧ root.get "auto_restart_period" = JsonVariant.integer 1) ∧
    (getAutoRestartPeriod M
        (patch s (singleton "auto_restart_period" (JsonVariant.integer 0))) = 0 ∧
      (patch s (singleton "auto_restart_period" (JsonVariant.integer 0)))._autoRestartPeriod = 0 ∧
      ∃ root, serialize (patch s (singleton "auto_restart_period" (JsonVariant.integer 0)))
          = some root ∧ root.get "auto_restart_period" = JsonVariant.integer 0) := by
  have h1 := patch_auto_restart_period s 1 (by decide)
  have h0 := patch_auto_restart_period s 0 (by decide)
  simp only [Int.ofNat_eq_coe, Nat.cast_one, Nat.cast_zero] at h1 h0
  have hmod : M % 2 ^ 32 = M := Nat.mod_eq_of_lt hM
  refine ⟨?_, ?_, ⟨?_, ?_, ?_⟩, ⟨?_, ?_, ?_⟩⟩
  · intro h
    unfold getAutoRestartPeriod
    rw [if_pos h]
  · intro h
    unfold getAutoRestartPeriod
    rw [if_neg h, hmod]
  · rw [h1]
    unfold getAutoRestartPeriod
    rw [hmod, if_neg (show ¬ (1 : Nat) = 0 by decide)]
    exact Nat.max_eq_right hM1
  · rw [h1]
  · rw [h1]
    exact serialize_auto_restart_period { s with _autoRestartPeriod := 1 } hc hp
  · rw [h0]
    rfl
  · rw [h0]
  · rw [h0]
    exact serialize_auto_restart_period { s with _autoRestartPeriod := 0 } hc hp

/-- Witness for C13: minimum 60, the sample state with a stored period of 5. -/
theorem getAutoRestartPeriod_clamps_witness :
    60 < 2 ^ 32 ∧ 1 ≤ 60 ∧ sampleSettings.CountsMatch ∧ sampleSettings.Populated ∧
    ({ sampleSettings with _autoRestartPeriod := 5 } : Settings)._autoRestartPeriod ≠ 0 ∧
    getAutoRestartPeriod 60 { sampleSettings with _autoRestartPeriod := 5 } = 60 :=
  have hw := getAutoRestartPeriod_clamps 60 { sampleSettings with _autoRestartPeriod := 5 }
    (by decide) (by decide) ⟨rfl, rfl⟩ trivial
  ⟨by decide, by decide, ⟨rfl, rfl⟩, trivial, by decide, (hw.2.1 (by decide)).trans (by decide)⟩

/-- C14 (radio type mapping). For every text `s`, `typeFromString s` is the
LT8900 radio exactly when `s` is the six characters `l t 8 9 0 0` with the
two letters in either case, and the nRF24 radio for every other text, the
empty text included; and a valid patch whose `radio_interface_type` member is
the text `s` sets `radioInterfaceType` to `typeFromString s`. -/
theorem typeFromString_mapping (s : String) (st : Settings) (doc : JsonObject)
    (h : doc.success = true) (hk : doc.containsKey "radio_interface_type" = true)
    (hv : doc.get "radio_interface_type" = JsonVariant.string s) :
    (typeFromString s = RadioInterfaceType.LT8900 ↔
      ∃ a b, s.data = [a, b, '8', '9', '0', '0'] ∧ (a = 'l' ∨ a = 'L') ∧ (b = 't' ∨ b = 'T')) ∧
    (typeFromString s = RadioInterfaceType.nRF24 ↔
      ¬ ∃ a b, s.data = [a, b, '8', '9', '0', '0'] ∧ (a = 'l' ∨ a = 'L') ∧ (b = 't' ∨ b = 'T')) ∧
    typeFromString "lt8900" = RadioInterfaceType.LT8900 ∧
    typeFromString "LT8900" = RadioInterfaceType.LT8900 ∧
    typeFromString "" = RadioInterfaceType.nRF24 ∧
    typeFromString "nRF24" = RadioInterfaceType.nRF24 ∧
    (patch st doc).radioInterfaceType = typeFromString s := by
  have hiff := equalsIgnoreCase_lt8900 s
  refine ⟨?_, ?_, by decide, by decide, by decide, by decide, ?_⟩
  · rw [← hiff]
    unfold typeFromString
    cases equalsIgnoreCase s "lt8900" <;> simp
  · rw [← hiff]
    unfold typeFromString
    cases equalsIgnoreCase s "lt8900" <;> simp
  · rw [patch_eq st doc h]
    simp [setIfPresent, hk, hv, JsonVariant.asString]

/-- Witness for C14: a patch with `radio_interface_type = "Lt8900"`. -/
theorem typeFromString_mapping_witness :
    (singleton "radio_interface_type" (JsonVariant.string "Lt8900")).success = true ∧
    (singleton "radio_interface_type" (JsonVariant.string "Lt8900")).containsKey
      "radio_interface_type" = true ∧
    (patch sampleSettings
      (singleton "radio_interface_type" (JsonVariant.string "Lt8900"))).radioInterfaceType
        = RadioInterfaceType.LT8900 :=
  have hw := typeFromString_mapping "Lt8900" sampleSettings
    (singleton "radio_interface_type" (JsonVariant.string "Lt8900")) rfl (by decide) rfl
  ⟨rfl, by decide, hw.2.2.2.2.2.2.trans (by decide)⟩

/-- C15 (enum/string inverse only on canonical values). For every radio type
`t`, `typeFromString (typeToString t) = t`; and for every text `s`,
`typeToString (typeFromString s) = s` exactly when `s` is `"LT8900"` or
`"nRF24"`. -/
theorem type_string_inverse :
    (∀ t : RadioInterfaceType, typeFromString (typeToString t) = t) ∧
    (∀ s : String, typeToString (typeFromString s) = s ↔ s = "LT8900" ∨ s = "nRF24") :=
  ⟨typeFromString_typeToString, typeToString_typeFromString_iff⟩

/-- C16 as stated fails: on a store without the blob on which opening for
writing fails, `load` leaves the state and the store as they were, and the
blob still does not exist. -/
theorem load_closed_store_creates_nothing :
    closedStore.file = none ∧
    load printOnlyCodec (Char.ofNat 0) sampleSettings closedStore
      = some (sampleSettings, closedStore) ∧
    closedStore.hasFile = false :=
  ⟨rfl, rfl, rfl⟩

/-- C16 (first-run default), amended. For every state that `serialize` can
read (counts equal to the array lengths, every gateway cell assigned) and
every store in which the settings blob does not exist and can be opened for
writing, `load` returns the state unchanged and a store in which the blob
exists and holds the printed document of that state; on a store without the
blob that cannot be opened for writing, `load` returns the state and the
store unchanged, so the blob still does not exist. -/
theorem load_first_run (codec : DocumentCodec) (terminator : Char) (s : Settings) (st : Store)
    (hf : st.file = none) (hw : st.writable = true) (hc : s.CountsMatch) (hp : s.Populated) :
    (∃ st2 root, load codec terminator s st = some (s, st2) ∧ serialize s = some root ∧
      st2.file = some (codec.printObject root) ∧ st2.hasFile = true) ∧
    (∀ st0 : Store, st0.file = none → st0.writable = false →
      load codec terminator s st0 = some (s, st0) ∧ st0.hasFile = false) := by
  have hser := serialize_eq s hc hp
  constructor
  · refine ⟨{ st with file := some (codec.printObject _) }, _, ?_, hser, rfl, rfl⟩
    unfold load save
    rw [hf]
    simp only [hw, if_true, hser, Option.map_some']
  · intro st0 h0 hw0
    constructor
    · unfold load save
      rw [h0]
      simp [hw0]
    · unfold Store.hasFile
      rw [h0]
      rfl

/-- Witness for C16 amended: the sample state on an empty writable store. -/
theorem load_first_run_witness :
    emptyStore.file = none ∧ emptyStore.writable = true ∧ sampleSettings.CountsMatch ∧
    sampleSettings.Populated ∧
    ∃ st2 root, load printOnlyCodec (Char.ofNat 0) sampleSettings emptyStore
        = some (sampleSettings, st2) ∧ serialize sampleSettings = some root ∧
      st2.file = some (printOnlyCodec.printObject root) ∧ st2.hasFile = true :=
  ⟨rfl, rfl, ⟨rfl, rfl⟩, trivial,
    (load_first_run printOnlyCodec (Char.ofNat 0) sampleSettings emptyStore rfl rfl ⟨rfl, rfl⟩
      trivial).1⟩

/-- C17 (`hasAuthSettings`). For every state, `hasAuthSettings` is true exactly
when `adminUsername` and `adminPassword` are both non-empty. -/
theorem hasAuthSettings_iff_nonempty (s : Settings) :
    hasAuthSettings s = true ↔ s.adminUsername ≠ "" ∧ s.adminPassword ≠ "" := by
  unfold hasAuthSettings
  simp only [Bool.and_eq_true, decide_eq_true_eq, gt_iff_lt, string_length_pos_iff]

/-- C18 (owned-array release), evaluated at the failing input: a fresh
instance patched twice with `gateway_configs = [[1,"80","v1"]]`.  After the
first patch the heap holds what the state refers to.  After the second the
old pointer array is released, but the record of the first patch is not: two
`GatewayConfig` records are live and the state refers to one. -/
theorem gateway_records_leak :
    patchHeap emptyHeap sampleSettings oneGateway = (patch sampleSettings oneGateway).owned ∧
    (patchHeap (patchHeap emptyHeap sampleSettings oneGateway)
      (patch sampleSettings oneGateway) oneGateway).gatewayArrays = 1 ∧
    (patchHeap (patchHeap emptyHeap sampleSettings oneGateway)
      (patch sampleSettings oneGateway) oneGateway).gatewayRecords = 2 ∧
    (patch (patch sampleSettings oneGateway) oneGateway).owned.gatewayRecords = 1 := by
  decide

/-- C19 (host is a colon-free prefix). For every stored text, `mqttServer` is
a prefix of it that holds no `:`; and when the text holds a `:`, it is
`mqttServer` followed by `:` followed by the text that `mqttPort` hands to
`atoi`.  The text `a:b:c` gives the host `a` and the port text `b:c`. -/
theorem mqttServer_host_split (D : Nat) (s : Settings) :
    (mqttServer s).data <+: s._mqttServer.data ∧
    ':' ∉ (mqttServer s).data ∧
    (':' ∈ s._mqttServer.data →
      s._mqttServer.data = (mqttServer s).data ++ ':' :: portText s ∧
        mqttPort D s = (atoi (portText s)).map (fun v => (v % (2 ^ 16 : Int)).toNat)) ∧
    mqttServer (withMqttServer "a:b:c") = "a" ∧
    portText (withMqttServer "a:b:c") = "b:c".data := by
  have hsplit : ':' ∈ s._mqttServer.data →
      s._mqttServer.data = (mqttServer s).data ++ ':' :: portText s ∧ ':' ∉ (mqttServer s).data ∧
        mqttPort D s = (atoi (portText s)).map (fun v => (v % (2 ^ 16 : Int)).toNat) := by
    intro h
    obtain ⟨host, rest, hs, hh, _⟩ := indexOf_split ':' _ h
    obtain ⟨h1, h2, h3⟩ := mqtt_of_split D s host rest hs hh
    rw [h1, h2]
    exact ⟨hs, hh, h3⟩
  refine ⟨?_, ?_, fun h => ⟨(hsplit h).1, (hsplit h).2.2⟩, by decide, by decide⟩
  · by_cases h : ':' ∈ s._mqttServer.data
    · exact ⟨':' :: portText s, (hsplit h).1.symm⟩
    · rw [mqttServer_of_no_colon s h]
  · by_cases h : ':' ∈ s._mqttServer.data
    · exact (hsplit h).2.1
    · rw [mqttServer_of_no_colon s h]
      exact h

/-- Witness for C19: the stored text `a:b:c`. -/
theorem mqttServer_host_split_witness :
    ':' ∈ (withMqttServer "a:b:c")._mqttServer.data ∧
    (withMqttServer "a:b:c")._mqttServer.data
      = (mqttServer (withMqttServer "a:b:c")).data ++ ':' :: portText (withMqttServer "a:b:c") :=
  ⟨by decide, ((mqttServer_host_split 1883 (withMqttServer "a:b:c")).2.2.1 (by decide)).1⟩

/-- C20 (`mqttPort` narrows to 16 bits). For every stored text `host:digits`
in which `host` holds no `:` and the decimal digits denote a number `n`
within the range of `int`, `mqttPort` returns `n mod 65536`, which is `n`
exactly when `n < 65536`.  The port text `70000` is reported as 4464. -/
theorem mqttPort_narrows (D : Nat) (s : Settings) (host : List Char) (ds : List Nat)
    (hh : ':' ∉ host) (hd : ∀ d ∈ ds, d < 10)
    (hs : s._mqttServer.data = host ++ ':' :: ds.map digitChar)
    (hn : Nat.ofDigits 10 ds.reverse ≤ 2 ^ 31 - 1) :
    mqttPort D s = some (Nat.ofDigits 10 ds.reverse % 65536) ∧
    (mqttPort D s = some (Nat.ofDigits 10 ds.reverse) ↔ Nat.ofDigits 10 ds.reverse < 65536) ∧
    mqttPort D (withMqttServer "broker.local:70000") = some 4464 := by
  have hp : mqttPort D s = some (Nat.ofDigits 10 ds.reverse % 65536) := by
    rw [(mqtt_of_split D s host _ hs hh).2.2, atoi_digits ds hd hn, Option.map_some',
      narrow_ofNat]
  refine ⟨hp, ?_, ?_⟩
  · rw [hp, Option.some.injEq]
    constructor
    · intro h
      omega
    · intro h
      exact Nat.mod_eq_of_lt h
  · exact (mqtt_of_split D (withMqttServer "broker.local:70000") "broker.local".data
      "70000".data rfl (by decide)).2.2.trans (by decide)

/-- Witness for C20: the stored text `h:70000`, digits 7 0 0 0 0. -/
theorem mqttPort_narrows_witness :
    ':' ∉ "h".data ∧ (∀ d ∈ [7, 0, 0, 0, 0], d < 10) ∧
    (withMqttServer "h:70000")._mqttServer.data
      = "h".data ++ ':' :: [7, 0, 0, 0, 0].map digitChar ∧
    Nat.ofDigits 10 [7, 0, 0, 0, 0].reverse ≤ 2 ^ 31 - 1 ∧
    mqttPort 1883 (withMqttServer "h:70000")
      = some (Nat.ofDigits 10 [7, 0, 0, 0, 0].reverse % 65536) :=
  ⟨by decide, by decide, by decide, by decide,
    (mqttPort_narrows 1883 (withMqttServer "h:70000") "h".data [7, 0, 0, 0, 0]
      (by decide) (by decide) (by decide) (by decide)).1⟩

end MiLight
